import Mathlib

/-!
Shallow embedding of the charmer path/SFTP core (Go) for specification
checking.

Conventions of the embedding:
* Go strings are modelled as `List Char` (`GoStr`); Go's `string`/`[]byte`
  conversions are exact byte copies in both directions, so byte buffers are
  modelled by the same type and the conversions are the identity.
* The host OS is Linux (`runtime.GOOS != "windows"`), matching the
  environment the repository targets by default; the Windows-only branches
  of the source are therefore not taken.
* Filesystems are finite association lists from (cleaned, absolute) path
  strings to entries; the root `/` always exists as a directory.
* Nondeterministic outcomes of the outside world (an `os.Rename` that may
  fail across devices, SSH dials, HTTP responses) are inputs to the
  functions that consume them.
-/

namespace Charmer

/-- Go strings, as their sequence of runes. -/
abbrev GoStr := List Char

/-- Embed a Lean string literal as a `GoStr`. -/
def gs (s : String) : GoStr := s.toList

/-- `strings.HasPrefix s pre`. -/
def strStartsWith (s pre : GoStr) : Bool := pre.isPrefixOf s

/-- `strings.HasSuffix s suf`. -/
def strEndsWith (s suf : GoStr) : Bool := suf.isSuffixOf s

/-- `strings.TrimPrefix s pre`. -/
def strTrimStart (s pre : GoStr) : GoStr :=
  if strStartsWith s pre then s.drop pre.length else s

/-- `strings.TrimSuffix s suf`. -/
def strTrimEnd (s suf : GoStr) : GoStr :=
  if strEndsWith s suf then s.take (s.length - suf.length) else s

/-- `strings.ReplaceAll s "\\" "/"`: the pattern is a single rune, so the
replacement is a character map. -/
def goReplaceBackslash (s : GoStr) : GoStr :=
  s.map (fun c => if c = '\\' then '/' else c)

/-- Accumulator-passing core of `goSplit`. -/
def goSplitAux (c : Char) : GoStr → GoStr → List GoStr
  | [], acc => [acc.reverse]
  | x :: xs, acc =>
    if x = c then acc.reverse :: goSplitAux c xs []
    else goSplitAux c xs (x :: acc)

/-- `strings.Split s (string c)` for a one-rune separator. -/
def goSplit (c : Char) (s : GoStr) : List GoStr := goSplitAux c s []

/-- Position of the last occurrence of rune `c` in `s`
(`strings.LastIndex s (string c)`), `-1` when absent. -/
def strLastIndex (s : GoStr) (c : Char) : Int :=
  match s with
  | [] => -1
  | x :: xs =>
    let r := strLastIndex xs c
    if r ≥ 0 then r + 1
    else if x = c then 0 else -1

/-- `strconv.Atoi`, on the values the repository feeds it (port strings):
an optional sign followed by at least one ASCII digit. -/
def goAtoi (s : GoStr) : Option Int :=
  let core : GoStr → Option Int := fun ds =>
    if ds = [] then none
    else if ds.all Char.isDigit then
      some (ds.foldl (fun a c => a * 10 + (c.toNat - '0'.toNat)) 0)
    else none
  match s with
  | '-' :: rest => (core rest).map (fun n => -n)
  | '+' :: rest => core rest
  | _ => core s

/-- Decimal digits of a natural number (used to model `fmt.Sprintf "%d"`). -/
def natToGoStr (n : Nat) : GoStr := (toString n).toList

/-- One step of Plan-9 `Clean`'s segment processing: push a segment onto
the stack of kept segments. -/
def cleanPush (abs : Bool) (stack : List GoStr) (s : GoStr) : List GoStr :=
  if s = [] ∨ s = gs "." then stack
  else if s = gs ".." then
    match stack with
    | t :: ts => if t = gs ".." then s :: t :: ts else ts
    | [] => if abs then [] else [s]
  else s :: stack

/-- `path/filepath.Clean` on Linux (separator `/`): drop empty and `.`
segments, resolve `..`, restore the leading `/`, and return `.` for an
empty result. -/
def cleanPath (p : GoStr) : GoStr :=
  let abs := strStartsWith p (gs "/")
  let segs := goSplit '/' p
  let stack := (segs.foldl (cleanPush abs) []).reverse
  let body := List.intercalate (gs "/") stack
  if abs then '/' :: body
  else if body = [] then gs "."
  else body

/-- `filepath.Join a b` (two operands): non-empty operands joined by `/`,
then cleaned. -/
def goJoin2 (a b : GoStr) : GoStr :=
  if a = [] then (if b = [] then [] else cleanPath b)
  else if b = [] then cleanPath a
  else cleanPath (a ++ '/' :: b)

/-- `filepath.Abs` on Linux with working directory `cwd`. -/
def goAbs (cwd p : GoStr) : GoStr :=
  if strStartsWith p (gs "/") then cleanPath p else goJoin2 cwd p

/-- `filepath.Dir`: everything up to (and including) the final separator,
cleaned; `.` when there is no separator. -/
def goDir (p : GoStr) : GoStr :=
  let i := strLastIndex p '/'
  if i < 0 then gs "." else cleanPath (p.take (i.toNat + 1))

/-- `filepath.Base`: the last element of the path after trailing
separators are removed; `.` for the empty path, `/` for all-separator
paths. -/
def goBase (p : GoStr) : GoStr :=
  if p = [] then gs "."
  else
    let q := (p.reverse.dropWhile (· = '/')).reverse
    if q = [] then gs "/"
    else (q.reverse.takeWhile (· ≠ '/')).reverse

/-- `filepath.Ext`: the suffix of the final element starting at its last
dot, empty when the final element has no dot. -/
def goExt (p : GoStr) : GoStr :=
  let tail := p.reverse.takeWhile (· ≠ '/')
  if tail.contains '.' then '.' :: (tail.takeWhile (· ≠ '.')).reverse
  else []

/-- `filepath.SplitList` on Linux: split on the list separator `:`;
the empty string yields no elements. -/
def goSplitList (p : GoStr) : List GoStr :=
  if p = [] then [] else goSplit ':' p

/-! ## The Path value (`pkg/charmer/path`) -/

/-- The `Path` struct of `pkg/charmer/path`: a normalized path string plus
the backend classification flags and the embedded SFTP credentials. -/
structure GoPath where
  path : GoStr
  isSftp : Bool := false
  isUrl : Bool := false
  host : GoStr := []
  port : GoStr := []
  username : GoStr := []
  password : GoStr := []
deriving DecidableEq

/-- `unicode.IsPrint`, on the ASCII range the repository's credentials use:
printable means not a control character and not DEL. -/
def goIsPrint (c : Char) : Bool := decide (32 ≤ c.toNat) && decide (c.toNat ≠ 127)

/-- `unicode.IsLetter` restricted to ASCII letters (hostname labels in the
modelled inputs are ASCII). -/
def goIsLetter (c : Char) : Bool := c.isAlpha

/-- `unicode.IsDigit` restricted to ASCII digits. -/
def goIsDigit (c : Char) : Bool := c.isDigit

/-- Interior of `isValidHostnameLabel`: every rune up to the second-to-last
may be a letter, digit or `-`; the last must be a letter or digit. -/
def labelRestOk : GoStr → Bool
  | [] => true
  | [d] => goIsLetter d || goIsDigit d
  | d :: rest => (goIsLetter d || goIsDigit d || d == '-') && labelRestOk rest

/-- `isValidHostnameLabel`: nonempty, first rune a letter, last rune a
letter or digit, interior runes letters, digits or `-`. -/
def isValidHostnameLabel (l : GoStr) : Bool :=
  match l with
  | [] => false
  | c :: rest => goIsLetter c && labelRestOk rest

/-- `MaxPathLength` from `pathlib.go`. -/
def MaxPathLength : Nat := 4096

/-- The path-segment checks of `Path.Validate`: the segment list is the
path with any `http://`/`https://` prefix and one leading `/` stripped,
split on `/`; empty segments are rejected when there is more than one,
`.`/`..` are rejected, and segments may not end in a space or period. -/
def segmentsOk (path : GoStr) : Bool :=
  let segs := goSplit '/'
    (strTrimStart (strTrimStart (strTrimStart path (gs "http://")) (gs "https://")) (gs "/"))
  segs.all (fun s =>
    !(s == [] && decide (segs.length > 1)) && !(s == gs ".") && !(s == gs "..") &&
    !strEndsWith s (gs " ") && !strEndsWith s (gs "."))

/-- The SFTP-specific checks of `Path.Validate`: host present and within
length bounds with valid labels, port (if set) a number in 1..65535,
username/password (if set) printable and at most 255 runes. -/
def sftpFieldsOk (p : GoPath) : Bool :=
  !(p.host == []) && decide (p.host.length ≤ 255) &&
  (goSplit '.' p.host).all (fun l => decide (l.length ≤ 63) && isValidHostnameLabel l) &&
  (p.port == [] ||
    match goAtoi p.port with
    | none => false
    | some n => decide (1 ≤ n) && decide (n ≤ 65535)) &&
  (p.username == [] || (decide (p.username.length ≤ 255) && p.username.all goIsPrint)) &&
  (p.password == [] || (decide (p.password.length ≤ 255) && p.password.all goIsPrint))

/-- `Path.Validate` on Linux (`runtime.GOOS != "windows"`, so the
Windows-only character and drive checks are skipped). `true` means the
source returns a nil error. -/
def goValidate (p : GoPath) : Bool :=
  !(p.path == []) &&
  !(decide (p.path.length > MaxPathLength) && !p.isUrl) &&
  !(p.isSftp && p.isUrl) &&
  p.path.all (fun c => decide (32 ≤ c.toNat) || c == '\t') &&
  (strStartsWith p.path (gs "/") || p.isUrl) &&
  (!p.isUrl || strStartsWith p.path (gs "http://") || strStartsWith p.path (gs "https://")) &&
  segmentsOk p.path &&
  (!p.isSftp || sftpFieldsOk p)

/-- Decomposition of an `sftp://` URL by `net/url`, on the shape the
factory accepts: `sftp://[user[:pass]@]host[:port]/path`. Modelled for
authorities without brackets or percent-escapes: userinfo is everything
before the last `@`, a trailing `:digits` of the host part is the port,
and a non-numeric port makes parsing fail (as `url.Parse` does). -/
def urlParseSftp (s : GoStr) : Option (GoStr × GoStr × GoStr × GoStr × GoStr) :=
  let rest := strTrimStart s (gs "sftp://")
  let authority := rest.takeWhile (· ≠ '/')
  let upath := rest.drop authority.length
  let (userinfo, hostport) :=
    let i := strLastIndex authority '@'
    if i < 0 then ([], authority)
    else (authority.take i.toNat, authority.drop (i.toNat + 1))
  let (user, pass) :=
    if userinfo.contains ':' then
      (userinfo.takeWhile (· ≠ ':'), (userinfo.dropWhile (· ≠ ':')).drop 1)
    else (userinfo, [])
  let j := strLastIndex hostport ':'
  if j < 0 then some (user, pass, hostport, [], upath)
  else
    let portStr := hostport.drop (j.toNat + 1)
    if portStr ≠ [] ∧ portStr.all Char.isDigit = true then
      some (user, pass, hostport.take j.toNat, portStr, upath)
    else none

/-- `New(path)` (no explicit SFTP config), with working directory `cwd`
standing in for `os.Getwd`. `none` models the source returning `nil`
(including the `log.Fatal` exits). The `http(s)://` branch re-serializes
the parsed URL; on the escape-free inputs modelled here `u.String()`
returns the input unchanged. -/
def goNew (cwd : GoStr) (raw : GoStr) : Option GoPath :=
  if raw = [] then none
  else
    let path := goReplaceBackslash raw
    if strStartsWith path (gs "sftp://") then
      match urlParseSftp path with
      | none => none
      | some (user, pass, host, port, upath) =>
        let port := if port = [] then gs "22" else port
        let cp0 := cleanPath upath
        let cp := if cp0 = gs "." then gs "/" else cp0
        let q : GoPath :=
          { path := cp, isSftp := true, host := host, port := port,
            username := user, password := pass }
        if goValidate q then some q else none
    else if strStartsWith path (gs "http://") ∨ strStartsWith path (gs "https://") then
      let q : GoPath := { path := path, isUrl := true }
      if goValidate q then some q else none
    else
      let absPath := if strStartsWith path (gs ".") then goAbs cwd path else path
      let q : GoPath := { path := absPath }
      if goValidate q then some q else none

/-! ## `net/url` on the escape-free subset, and the pure path operations -/

/-- Decomposition of an `http://`/`https://` URL string into scheme, host
(including any `:port`) and path component, as `url.Parse` produces on
URLs without userinfo, query, fragment or percent-escapes
(`urlWf` states that restriction). -/
def urlSplit (s : GoStr) : Option (GoStr × GoStr × GoStr) :=
  if strStartsWith s (gs "http://") then
    let rest := s.drop 7
    let host := rest.takeWhile (· ≠ '/')
    some (gs "http", host, rest.drop host.length)
  else if strStartsWith s (gs "https://") then
    let rest := s.drop 8
    let host := rest.takeWhile (· ≠ '/')
    some (gs "https", host, rest.drop host.length)
  else none

/-- Reassembly of a URL from scheme, host and path; on the `urlWf` subset
this is exactly `(*url.URL).String()`. -/
def urlString (sch host pa : GoStr) : GoStr := sch ++ gs "://" ++ host ++ pa

/-- Characters allowed in the modelled URL host part (letters, digits,
dots, hyphens and a port colon): on these, `url.Parse` keeps the host
verbatim and detects no userinfo. -/
def urlHostChar (c : Char) : Bool :=
  c.isAlphanum || c == '.' || c == '-' || c == ':'

/-- Characters of URL path components that `url.Parse` decodes and
`URL.String()` re-encodes to themselves (no percent-escaping). -/
def urlPathChar (c : Char) : Bool :=
  c.isAlphanum || c == '/' || c == '.' || c == '-' || c == '_' || c == '~' || c == ':'

/-- Well-formedness of a URL string for the `net/url` model: it splits
into a nonempty escape-free host and an escape-free path component. -/
def urlWf (s : GoStr) : Bool :=
  match urlSplit s with
  | none => false
  | some (_, host, pa) =>
    !(host == []) && host.all urlHostChar && pa.all urlPathChar

/-- `Path.Join` (`pathlib.go`): URLs are joined textually on the URL
string, other paths via `filepath.Join` + `filepath.Clean`; the URL
branch builds a fresh `Path` whose credential fields are zero. -/
def goJoinPath (p : GoPath) (path0 : GoStr) : GoPath :=
  if path0 = [] then p
  else
    let path := goReplaceBackslash path0
    if p.isUrl then
      let basePath := strTrimEnd p.path (gs "/")
      let joinPath := strTrimStart path (gs "/")
      if joinPath = [] then { path := basePath, isUrl := true, isSftp := false }
      else { path := basePath ++ '/' :: joinPath, isUrl := true, isSftp := false }
    else if p.isSftp then
      { path := cleanPath (goJoin2 p.path path), isSftp := true,
        host := p.host, port := p.port, username := p.username, password := p.password }
    else
      { path := cleanPath (goJoin2 p.path path) }

/-- `Path.Parent` (`pathlib.go`): for URLs the parent is taken on the
parsed path component and reassembled; a root (URL path empty or `/`,
or non-URL path `/`) is its own parent; otherwise `filepath.Dir`. -/
def goParent (p : GoPath) : GoPath :=
  if p.isUrl then
    match urlSplit p.path with
    | none => { path := goDir p.path, isUrl := true, isSftp := false }
    | some (sch, host, upath) =>
      if upath = [] ∨ upath = gs "/" then p
      else
        let lastSlash := strLastIndex upath '/'
        let newPath :=
          if lastSlash ≤ 0 then gs "/"
          else if upath.take lastSlash.toNat = [] then gs "/"
          else upath.take lastSlash.toNat
        { path := urlString sch host newPath, isUrl := true, isSftp := false }
  else if p.path = gs "/" then p
  else if p.isSftp then
    { path := goDir p.path, isSftp := true,
      host := p.host, port := p.port, username := p.username, password := p.password }
  else { path := goDir p.path }

/-- The URL arm of `Path.Name`, as a function of the URL's parsed path
component alone. -/
def urlNameOfPath (upath : GoStr) : GoStr :=
  if upath = [] ∨ upath = gs "/" then []
  else
    let path2 := strTrimEnd upath (gs "/")
    let i := strLastIndex path2 '/'
    if i = -1 then path2 else path2.drop (i.toNat + 1)

/-- `Path.Name` (`pathlib.go`): last element of the URL path component
for URLs, `filepath.Base` otherwise. -/
def goName (p : GoPath) : GoStr :=
  if p.isUrl then
    match urlSplit p.path with
    | none => goBase p.path
    | some (_, _, upath) => urlNameOfPath upath
  else goBase p.path

/-- The `Stem` computation on an already-extracted name. -/
def nameStem (name : GoStr) : GoStr :=
  let ext := goExt name
  if ext ≠ [] then name.take (name.length - ext.length) else name

/-- The `Suffix` computation on an already-extracted name. -/
def nameSuffix (name : GoStr) : GoStr :=
  let ext := goExt name
  if ext ≠ [] then ext.drop 1 else []

/-- `Path.Stem`: the name with its `filepath.Ext` extension removed. -/
def goStem (p : GoPath) : GoStr := nameStem (goName p)

/-- `Path.Suffix`: the `filepath.Ext` extension without the leading dot. -/
def goSuffixOf (p : GoPath) : GoStr := nameSuffix (goName p)

/-! ## Errors and the filesystem model -/

/-- The error kinds the modelled code distinguishes. `errExist` is
`fs.ErrExist` (the `AlreadyExists` family), `errNotExist` is
`fs.ErrNotExist`, `errInvalid` is `fs.ErrInvalid`; `errValidate` marks a
`Validate` failure wrapped by the facade, `errGeneric` an `errors.New` /
`fmt.Errorf` message, `errOsFail` an undistinguished I/O failure from the
OS or the SFTP transport. -/
inductive ErrKind where
  | errExist
  | errNotExist
  | errInvalid
  | errValidate
  | errGeneric
  | errOsFail
  | errPoolExhausted
  | errConnectFailed
deriving DecidableEq

/-- `pathmodels.PathError`: operation name, path, and the kind of the
wrapped error. -/
structure PathE where
  op : GoStr
  epath : GoStr
  kind : ErrKind
deriving DecidableEq

/-- Whether a result failed with the `AlreadyExists` error
(`fs.ErrExist`). -/
def isExistErr {α : Type} (r : Except PathE α) : Bool :=
  match r with
  | .error e => e.kind == ErrKind.errExist
  | .ok _ => false

/-- A filesystem entry: a directory or a file with its byte content
(symbolic links are outside this model; every claim below is about
regular files and directories). -/
inductive FsEntry where
  | fdir
  | ffile (content : GoStr)
deriving DecidableEq

/-- A filesystem: an association list from cleaned absolute path strings
to entries. The root `/` always exists as a directory and is not stored. -/
abbrev Fs := List (GoStr × FsEntry)

/-- `os.Stat`/`client.Stat` on the model: the root is always a directory,
other paths resolve through the association list. -/
def fsStat (σ : Fs) (p : GoStr) : Option FsEntry :=
  if p = gs "/" then some FsEntry.fdir
  else (σ.find? (fun kv => kv.1 == p)).map (·.2)

/-- Replace (or create) the entry at `p`. -/
def fsInsert (σ : Fs) (p : GoStr) (e : FsEntry) : Fs :=
  (p, e) :: σ.filter (fun kv => !(kv.1 == p))

/-- Remove the entry at `p` (children untouched): `os.Remove`. -/
def fsErase (σ : Fs) (p : GoStr) : Fs :=
  σ.filter (fun kv => !(kv.1 == p))

/-- Whether `k` lies strictly below `p` in the tree. -/
def isUnder (k p : GoStr) : Bool := strStartsWith k (p ++ gs "/")

/-- Remove `p` and everything below it: `os.RemoveAll`. -/
def fsEraseSub (σ : Fs) (p : GoStr) : Fs :=
  σ.filter (fun kv => !(kv.1 == p) && !(isUnder kv.1 p))

/-- Move the subtree at `src` to `dest` (keys rewritten). -/
def fsRenameSub (σ : Fs) (src dest : GoStr) : Fs :=
  σ.map (fun kv =>
    if kv.1 == src then (dest, kv.2)
    else if isUnder kv.1 src then (dest ++ kv.1.drop src.length, kv.2)
    else kv)

/-- The immediate and transitive children of `p` present in `σ`. -/
def fsChildren (σ : Fs) (p : GoStr) : List (GoStr × FsEntry) :=
  σ.filter (fun kv => isUnder kv.1 p)

/-- `rename(2)` as used by the move paths. `renameOk` is the
environment's verdict on whether the syscall itself goes through (a
cross-device rename fails even on valid arguments). The call fails when
the source is missing, and the model only lets it replace an existing
destination when both sides are regular files. -/
def osRename (σ : Fs) (src dest : GoStr) (renameOk : Bool) : Except ErrKind Fs :=
  match fsStat σ src with
  | none => .error .errNotExist
  | some srcE =>
    if !renameOk then .error .errOsFail
    else
      match fsStat σ dest with
      | none => .ok (fsRenameSub σ src dest)
      | some destE =>
        match srcE, destE with
        | .ffile _, .ffile _ => .ok (fsRenameSub (fsErase σ dest) src dest)
        | _, _ => .error .errOsFail

/-- `os.Mkdir`: fails if the target exists or its parent is not a
directory. -/
def osMkdir (σ : Fs) (p : GoStr) : Except ErrKind Fs :=
  if (fsStat σ p).isSome then .error .errExist
  else if fsStat σ (goDir p) = some .fdir then .ok (fsInsert σ p .fdir)
  else .error .errNotExist

/-- `os.MkdirAll`, by recursion on the parent chain (`fuel` bounds the
recursion depth; `goDir` strictly shortens absolute paths, so any fuel
of at least the path length is enough). Mirrors Go: an existing
directory succeeds, an existing non-directory fails, and a `Mkdir` race
loss is forgiven when the path is a directory by then. -/
def osMkdirAll (fuel : Nat) (σ : Fs) (p : GoStr) : Except ErrKind Fs :=
  match fuel with
  | 0 => .error .errGeneric
  | fuel + 1 =>
    match fsStat σ p with
    | some .fdir => .ok σ
    | some (.ffile _) => .error .errGeneric
    | none =>
      match osMkdirAll fuel σ (goDir p) with
      | .error e => .error e
      | .ok σ1 =>
        match osMkdir σ1 p with
        | .ok σ2 => .ok σ2
        | .error _ => if fsStat σ1 p = some .fdir then .ok σ1 else .error .errGeneric

/-! ## Local primitive operations (`operations/local`) -/

/-- `pathlocal.Stat`'s `FileInfo` projection (mode and mtime are
outside the model). -/
structure GoFileInfo where
  name : GoStr
  size : Int
  isDir : Bool
deriving DecidableEq

/-- Build the `FileInfo` a stat of entry `e` at `p` reports. -/
def infoOf (p : GoStr) (e : FsEntry) : GoFileInfo :=
  { name := goBase p
    size := match e with | .fdir => 0 | .ffile c => c.length
    isDir := e == FsEntry.fdir }

/-- `pathlocal.Stat`: `os.Stat` wrapped in a `PathError`. -/
def localStat (σ : Fs) (path : GoStr) : Except PathE GoFileInfo :=
  match fsStat σ path with
  | none => .error ⟨gs "stat", path, .errNotExist⟩
  | some e => .ok (infoOf path e)

/-- `pathlocal.MakeDir` (`operations/local/mkdir.go`): clean, stat, and
create with `os.Mkdir` or `os.MkdirAll` according to `parents`. -/
def localMakeDir (σ : Fs) (path0 : GoStr) (parents existsOk : Bool) :
    Except PathE Unit × Fs :=
  let path := cleanPath path0
  match fsStat σ path with
  | some e =>
    if e = .fdir then
      if existsOk then (.ok (), σ)
      else (.error ⟨gs "local-mkdir-exists", path, .errExist⟩, σ)
    else (.error ⟨gs "local-mkdir-notdir", path, .errExist⟩, σ)
  | none =>
    if !parents then
      match osMkdir σ path with
      | .ok σ1 => (.ok (), σ1)
      | .error e => (.error ⟨gs "local-mkdir", path, e⟩, σ)
    else
      match osMkdirAll (path.length + 1) σ path with
      | .ok σ1 => (.ok (), σ1)
      | .error e => (.error ⟨gs "local-mkdir-all", path, e⟩, σ)

/-- `os.Create` (also `client.Create`) followed by writing `data` and
flushing: truncates an existing regular file or creates a fresh one,
fails on a directory or a missing parent directory. `op` is the
operation name the caller wraps errors with. -/
def osCreate (op : GoStr) (σ : Fs) (p data : GoStr) : Except PathE Unit × Fs :=
  match fsStat σ p with
  | some .fdir => (.error ⟨op, p, .errOsFail⟩, σ)
  | some (.ffile _) =>
    if fsStat σ (goDir p) = some .fdir then (.ok (), fsInsert σ p (.ffile data))
    else (.error ⟨op, p, .errNotExist⟩, σ)
  | none =>
    if fsStat σ (goDir p) = some .fdir then (.ok (), fsInsert σ p (.ffile data))
    else (.error ⟨op, p, .errNotExist⟩, σ)

/-- A character encoding as the repository uses it: a fallible encoder
and decoder pair on byte strings (`golang.org/x/text` `Encoding`). -/
structure GoEncoding where
  encode : GoStr → Option GoStr
  decode : GoStr → Option GoStr

/-- The identity (`encoding.Nop`) encoding, used when the IANA index
maps a name to `nil`. -/
def nopEncoding : GoEncoding := ⟨some, some⟩

/-- The IANA encoding registry (`ianaindex.IANA.Encoding`): `none` is a
lookup error, `some none` a `nil` encoding (→ `Nop`), `some (some e)` a
concrete encoding. The registry is a parameter of the embedding. -/
abbrev EncRegistry := GoStr → Option (Option GoEncoding)

/-- Resolve an encoding name against the registry the way the read and
write paths do (`nil` becomes `Nop`). -/
def resolveEnc (reg : EncRegistry) (name : GoStr) : Option GoEncoding :=
  match reg name with
  | none => none
  | some none => some nopEncoding
  | some (some e) => some e

/-- `pathlocal.WriteText` (`operations/local/writetext.go`): resolve the
encoding, encode, decode back and compare (round-trip validation), then
create/truncate the file and write the encoded bytes. -/
def localWriteText (reg : EncRegistry) (σ : Fs) (filePath content encodingName : GoStr) :
    Except PathE Unit × Fs :=
  match resolveEnc reg encodingName with
  | none => (.error ⟨gs "local-write-get-encoding", filePath, .errGeneric⟩, σ)
  | some enc =>
    match enc.encode content with
    | none => (.error ⟨gs "local-write-encode", filePath, .errGeneric⟩, σ)
    | some encoded =>
      match enc.decode encoded with
      | none => (.error ⟨gs "local-write-validate", filePath, .errGeneric⟩, σ)
      | some decoded =>
        if decoded ≠ content then
          (.error ⟨gs "local-write-validate", filePath, .errGeneric⟩, σ)
        else osCreate (gs "local-write-create") σ filePath encoded

/-- `pathlocal.ReadText` (`operations/local/mkdir.go`, second unit):
resolve the encoding, read the file's bytes, decode. -/
def localReadText (reg : EncRegistry) (σ : Fs) (filePath encodingName : GoStr) :
    Except PathE GoStr :=
  match resolveEnc reg encodingName with
  | none => .error ⟨gs "local-read-get-encoding", filePath, .errGeneric⟩
  | some enc =>
    match fsStat σ filePath with
    | none => .error ⟨gs "local-read-open", filePath, .errNotExist⟩
    | some .fdir => .error ⟨gs "local-read-read-all", filePath, .errOsFail⟩
    | some (.ffile content) =>
      match enc.decode content with
      | none => .error ⟨gs "local-read-decode", filePath, .errGeneric⟩
      | some decoded => .ok decoded

/-- `pathlocal.WriteBytes` (unnamed unit): create/truncate and write the
buffer through a buffered writer. -/
def localWriteBytes (σ : Fs) (filePath data : GoStr) : Except PathE Unit × Fs :=
  osCreate (gs "local-write-create") σ filePath data

/-- `pathlocal.ReadBytes` (`operations/local/readbytes.go`). -/
def localReadBytes (σ : Fs) (filePath : GoStr) : Except PathE GoStr :=
  match fsStat σ filePath with
  | none => .error ⟨gs "local-read-open", filePath, .errNotExist⟩
  | some .fdir => .error ⟨gs "local-read-read-all", filePath, .errOsFail⟩
  | some (.ffile content) => .ok content

/-! ## Buffer sizing (`path/helpers`) -/

/-- `helpers.GetOptimalBufferSize`: the file size itself below 4KiB,
otherwise `4KiB × GOMAXPROCS` capped at 1MiB. -/
def goGetOptimalBufferSize (fileSize : Int) (cpuCount : Nat) : Int :=
  let baseSize : Int := 4 * 1024
  if fileSize < baseSize then fileSize
  else
    let scaledSize := baseSize * cpuCount
    let maxSize : Int := 1 * 1024 * 1024
    if scaledSize > maxSize then maxSize else scaledSize

/-- The buffer size `moveFile`/`copyFile` actually use
(`locallocal/move.go` lines 96–99): the computed optimum unless the
options carry a positive `BufferSize`. -/
def effectiveBufferSize (optionsBufferSize fileSize : Int) (cpuCount : Nat) : Int :=
  let bufferSize := goGetOptimalBufferSize fileSize cpuCount
  if optionsBufferSize > 0 then optionsBufferSize else bufferSize

/-! ## Local→local move (`operations/locallocal/move.go`)

`MoveTo` calls `pathlocallocal.Move` with no option argument, so the
options are `DefaultPathOption()` inside zero-valued `CopyOptions`:
`Recursive = false`, `FollowSymlinks = false`, `PreserveAttributes =
true`, `Timeout = 60s`. The 60-second context never expires between the
model's atomic steps, entries are never symlinks, and the buffered byte
loop is modelled by its effect (the destination receives the source's
full content). -/

/-- `moveFile` for a regular-file source of content `srcContent`.
`renameTmpOk` is the environment's verdict on the final temp→dest
rename of the overwrite path. -/
def llMoveFile (σ : Fs) (renameTmpOk : Bool) (dest srcContent : GoStr)
    (overwrite : Bool) : Except PathE Unit × Fs :=
  let tempDest := if overwrite then dest ++ gs ".tmp" else dest
  match fsStat σ tempDest with
  | some .fdir => (.error ⟨gs "create", tempDest, .errOsFail⟩, σ)
  | _ =>
    if fsStat σ (goDir tempDest) = some .fdir then
      let σ1 := fsInsert σ tempDest (.ffile srcContent)
      if overwrite ∧ tempDest ≠ dest then
        match osRename σ1 tempDest dest renameTmpOk with
        | .ok σ2 =>
          if (fsStat σ2 dest).isSome then (.ok (), σ2)
          else (.error ⟨gs "chtimes", dest, .errNotExist⟩, σ2)
        | .error _ => (.error ⟨gs "rename", dest, .errOsFail⟩, fsErase σ1 tempDest)
      else
        if (fsStat σ1 dest).isSome then (.ok (), σ1)
        else (.error ⟨gs "chtimes", dest, .errNotExist⟩, σ1)
    else (.error ⟨gs "create", tempDest, .errNotExist⟩, σ)

/-- `pathlocallocal.Move` as invoked by `MoveTo` (default options): stat
the source, fail fast on an existing destination unless overwriting, try
the atomic `os.Rename`, and fall back to copy-and-delete for files
(`Recursive` is false, so a directory fallback fails with
`fs.ErrInvalid`). -/
def llMove (σ : Fs) (renameOk renameTmpOk : Bool) (src dest : GoStr)
    (overwrite : Bool) : Except PathE Unit × Fs :=
  match fsStat σ src with
  | none => (.error ⟨gs "stat", src, .errNotExist⟩, σ)
  | some srcE =>
    if (fsStat σ dest).isSome ∧ ¬overwrite then
      (.error ⟨gs "move", dest, .errGeneric⟩, σ)
    else
      match osRename σ src dest renameOk with
      | .ok σ1 => (.ok (), σ1)
      | .error _ =>
        match srcE with
        | .fdir => (.error ⟨gs "move", src, .errInvalid⟩, σ)
        | .ffile content =>
          match llMoveFile σ renameTmpOk dest content overwrite with
          | (.ok _, σ1) => (.ok (), fsEraseSub σ1 src)
          | (.error e, σ1) => (.error e, σ1)

/-! ## SFTP connection manager (`pkg/charmer/sftp/manager.go`)

Durations are abstract numbers (the source's `time.Duration` values);
only zero-vs-nonzero and the documented default values matter to the
claims. SSH dial outcomes are an input list (`dial`): one entry is
consumed per connection attempt, `some id` is a successful handshake
producing client `id`, `none` a failed one. `now` stands for
`time.Now()`. -/

/-- `sftpmanager.ConnectionDetails`. -/
structure ConnectionDetails where
  hostname : GoStr
  port : Int
  username : GoStr := []
  password : GoStr := []
  connectTimeout : Int := 0
  maxRetries : Int := 0
  retryDelay : Int := 0
  keepAliveInterval : Int := 0
  enableCompression : Bool := false
deriving DecidableEq

/-- `fmt.Sprintf "%d"` for the port field. -/
def intToGoStr (n : Int) : GoStr := (toString n).toList

/-- `ConnectionDetails.String()`: the pool key `user@host:port`. -/
def cdString (cd : ConnectionDetails) : GoStr :=
  cd.username ++ '@' :: (cd.hostname ++ ':' :: intToGoStr cd.port)

/-- Default configuration values of `manager.go` (durations abstract). -/
def DefaultConnectTimeout : Int := 10
/-- Default `MaxRetries`. -/
def DefaultMaxRetries : Int := 3
/-- Default `RetryDelay`. -/
def DefaultRetryDelay : Int := 1
/-- Default `KeepAliveInterval`. -/
def DefaultKeepAliveInterval : Int := 30
/-- Default `MaxConnections`. -/
def DefaultMaxConnections : Nat := 10
/-- Default `MaxIdleTime`. -/
def DefaultMaxIdleTime : Nat := 5
/-- Default `CleanupInterval`. -/
def DefaultCleanupInterval : Nat := 2

/-- `ConnectionDetails.applyDefaults`. -/
def applyDefaults (cd : ConnectionDetails) : ConnectionDetails :=
  { cd with
    connectTimeout := if cd.connectTimeout = 0 then DefaultConnectTimeout else cd.connectTimeout
    maxRetries := if cd.maxRetries = 0 then DefaultMaxRetries else cd.maxRetries
    retryDelay := if cd.retryDelay = 0 then DefaultRetryDelay else cd.retryDelay
    keepAliveInterval :=
      if cd.keepAliveInterval = 0 then DefaultKeepAliveInterval else cd.keepAliveInterval }

/-- `clientInfo`: the pooled SFTP client (an id for the handle pair),
whether the underlying connection is still usable (a closed or dead
client fails its `Getwd` probe), and the last-used timestamp. -/
structure ClientInfo where
  client : Nat
  alive : Bool
  lastUsed : Nat
deriving DecidableEq

/-- `Manager`: the keyed client pool plus its configuration. -/
structure Manager where
  clients : List (GoStr × ClientInfo)
  maxIdleTime : Nat
  maxConnections : Nat
  cleanupInterval : Nat
deriving DecidableEq

/-- `NewManager`: zero configuration fields receive the defaults; the
pool starts empty. -/
def newManager (maxIdleTime maxConnections cleanupInterval : Nat) : Manager :=
  { clients := []
    maxIdleTime := if maxIdleTime = 0 then DefaultMaxIdleTime else maxIdleTime
    maxConnections := if maxConnections = 0 then DefaultMaxConnections else maxConnections
    cleanupInterval := if cleanupInterval = 0 then DefaultCleanupInterval else cleanupInterval }

/-- Mark the pooled client stored under `key` as closed
(`client.Close()` on a borrowed pooled client: the entry stays in the
map but later probes fail). -/
def closeClient (m : Manager) (key : GoStr) : Manager :=
  { m with clients := m.clients.map (fun kv =>
      if kv.1 == key then (kv.1, { kv.2 with alive := false }) else kv) }

/-- `Manager.getExistingClient`: look up the key, refresh `lastUsed`,
probe with `Getwd` (success iff the client is alive), and evict a dead
entry. -/
def getExistingClient (m : Manager) (now : Nat) (key : GoStr) :
    Option Nat × Manager :=
  match m.clients.find? (fun kv => kv.1 == key) with
  | none => (none, m)
  | some kv =>
    let m1 : Manager :=
      { m with clients := m.clients.map (fun e =>
          if e.1 == key then (e.1, { e.2 with lastUsed := now }) else e) }
    if kv.2.alive then (some kv.2.client, m1)
    else (none, { m1 with clients := m1.clients.filter (fun e => !(e.1 == key)) })

/-- `Manager.createNewClient` for one dial outcome: a failed handshake
surfaces the error, a successful one stores the new client under the
key. -/
def createNewClient (m : Manager) (now : Nat) (key : GoStr)
    (outcome : Option Nat) : Except ErrKind Nat × Manager :=
  match outcome with
  | none => (.error .errConnectFailed, m)
  | some cid =>
    (.ok cid,
      { m with clients :=
          (key, { client := cid, alive := true, lastUsed := now }) ::
            m.clients.filter (fun e => !(e.1 == key)) })

/-- The retry loop of `GetClient`: up to `attempts` dials, each consuming
one dial outcome, sleeping `RetryDelay` in between (time abstracted). -/
def retryCreate (m : Manager) (now : Nat) (key : GoStr) :
    Nat → List (Option Nat) → Except ErrKind Nat × Manager
  | 0, _ => (.error .errConnectFailed, m)
  | n + 1, outcomes =>
    match createNewClient m now key (outcomes.head?.getD none) with
    | (.ok c, m1) => (.ok c, m1)
    | (.error _, _) => retryCreate m now key n outcomes.tail

/-- `Manager.GetClient`: apply defaults, reject when the pool already
holds `MaxConnections` entries, otherwise reuse a live pooled client or
create one with retries. (The context is never cancelled in the model.) -/
def getClientM (m : Manager) (now : Nat) (dial : List (Option Nat))
    (cd : ConnectionDetails) : Except ErrKind Nat × Manager :=
  let d := applyDefaults cd
  let key := cdString d
  if m.clients.length ≥ m.maxConnections then (.error .errPoolExhausted, m)
  else
    match getExistingClient m now key with
    | (some c, m1) => (.ok c, m1)
    | (none, m1) => retryCreate m1 now key (d.maxRetries.toNat + 1) dial

/-! ## SFTP primitive operations (`path/operations/sftp`)

Each operation acquires a client from the (global) manager. `σr` is the
remote server's filesystem, modelled like the local one (symlink-free).
Operations whose source ends in `defer client.Close()` hand back a
manager in which the borrowed pooled client has been closed. -/

/-- Immediate entries of directory `p` (`client.ReadDir`). -/
def fsReadDir (σ : Fs) (p : GoStr) : List (GoStr × FsEntry) :=
  σ.filter (fun kv => isUnder kv.1 p && !(kv.1.drop (p.length + 1)).contains '/')

/-- The body of `pathsftp.Remove` for `followSymlinks = false` (in the
symlink-free model `followSymlinks = true` only changes the error on
non-links, see `sftpRemove`): `Lstat`, refuse non-empty directories,
then `client.Remove`. -/
def sftpRemoveBody (σ : Fs) (path : GoStr) (missingOk : Bool) :
    Except PathE Unit × Fs :=
  match fsStat σ path with
  | none =>
    if missingOk then (.ok (), σ)
    else (.error ⟨gs "sftp-remove-stat", path, .errNotExist⟩, σ)
  | some .fdir =>
    if (fsReadDir σ path).length > 0 then
      (.error ⟨gs "sftp-remove-notempty", path, .errInvalid⟩, σ)
    else (.ok (), fsErase σ path)
  | some (.ffile _) => (.ok (), fsErase σ path)

/-- `pathsftp.Remove` (`operations/sftp/remove.go`): get a client, clean
the path, operate, and close the borrowed client on the way out
(`defer client.Close()`). With `followSymlinks = true` the initial
`client.ReadLink` fails on every entry of the symlink-free model (with
not-found on a missing path). -/
def sftpRemove (m : Manager) (now : Nat) (dial : List (Option Nat)) (σr : Fs)
    (path0 : GoStr) (missingOk followSymlinks : Bool) (cd : ConnectionDetails) :
    Except PathE Unit × Fs × Manager :=
  match getClientM m now dial cd with
  | (.error e, m1) => (.error ⟨gs "sftp-remove-get-client", path0, e⟩, σr, m1)
  | (.ok _, m1) =>
    let key := cdString (applyDefaults cd)
    let path := cleanPath path0
    let r :=
      if followSymlinks then
        match fsStat σr path with
        | none =>
          if missingOk then (.ok (), σr)
          else (.error ⟨gs "sftp-remove-read-link", path, .errNotExist⟩, σr)
        | some _ => (.error ⟨gs "sftp-remove-read-link", path, .errGeneric⟩, σr)
      else sftpRemoveBody σr path missingOk
    (r.1, r.2, closeClient m1 key)

/-- The `client.Mkdir`-based body of `pathsftp.MakeDir`'s
parent-creation loop: `current` accumulates `filepath.Join`s of the
`filepath.SplitList` pieces, a failed `Mkdir` is forgiven when a stat
shows a directory. -/
def mkdirLoop (σ : Fs) (current : GoStr) :
    List GoStr → Except PathE Unit × Fs
  | [] => (.ok (), σ)
  | part :: rest =>
    let cur := goJoin2 current part
    match osMkdir σ cur with
    | .ok σ2 => mkdirLoop σ2 cur rest
    | .error _ =>
      if fsStat σ cur = some .fdir then mkdirLoop σ cur rest
      else (.error ⟨gs "sftp-mkdir-all", cur, .errGeneric⟩, σ)

/-- The post-acquisition body of `pathsftp.MakeDir` (unnamed unit):
stat, honor `existsOk`, then either a single `client.Mkdir` or the
parent-creation loop over `filepath.SplitList path` (the source's
platform-list splitter — `:`-separated on Linux). -/
def sftpMakeDirBody (σ : Fs) (path : GoStr) (parents existsOk : Bool) :
    Except PathE Unit × Fs :=
  match fsStat σ path with
  | some e =>
    if e = .fdir then
      if existsOk then (.ok (), σ)
      else (.error ⟨gs "sftp-mkdir-exists", path, .errExist⟩, σ)
    else (.error ⟨gs "sftp-mkdir-notdir", path, .errExist⟩, σ)
  | none =>
    if !parents then
      match osMkdir σ path with
      | .ok σ1 => (.ok (), σ1)
      | .error e => (.error ⟨gs "sftp-mkdir", path, e⟩, σ)
    else mkdirLoop σ (gs "/") (goSplitList path)

/-- `pathsftp.MakeDir`: get a client, clean the path, run the body, and
close the borrowed client on the way out (`defer client.Close()`). -/
def sftpMakeDir (m : Manager) (now : Nat) (dial : List (Option Nat)) (σr : Fs)
    (path0 : GoStr) (parents existsOk : Bool) (cd : ConnectionDetails) :
    Except PathE Unit × Fs × Manager :=
  match getClientM m now dial cd with
  | (.error e, m1) => (.error ⟨gs "sftp-mkdir-get-client", path0, e⟩, σr, m1)
  | (.ok _, m1) =>
    let key := cdString (applyDefaults cd)
    let r := sftpMakeDirBody σr (cleanPath path0) parents existsOk
    (r.1, r.2, closeClient m1 key)

/-- `pathsftp.WriteBytes` (`operations/sftp/writetext.go`, second unit):
get a client, `client.Create` the remote file and write the buffer.
The source closes only the remote file handle — not the pooled client. -/
def sftpWriteBytes (m : Manager) (now : Nat) (dial : List (Option Nat)) (σr : Fs)
    (filePath data : GoStr) (cd : ConnectionDetails) :
    Except PathE Unit × Fs × Manager :=
  match getClientM m now dial cd with
  | (.error e, m1) => (.error ⟨gs "sftp-write-get-client", filePath, e⟩, σr, m1)
  | (.ok _, m1) =>
    let r := osCreate (gs "sftp-write-create") σr filePath data
    (r.1, r.2, m1)

/-- `pathsftp.Stat` (unnamed unit): get a client, `client.Stat`, build
the `FileInfo`; no close of the pooled client. -/
def sftpStat (m : Manager) (now : Nat) (dial : List (Option Nat)) (σr : Fs)
    (path : GoStr) (cd : ConnectionDetails) :
    Except PathE GoFileInfo × Manager :=
  match getClientM m now dial cd with
  | (.error e, m1) => (.error ⟨gs "sftp-stat-get-client", path, e⟩, m1)
  | (.ok _, m1) =>
    match fsStat σr path with
    | none => (.error ⟨gs "sftp-stat", path, .errNotExist⟩, m1)
    | some e => (.ok (infoOf path e), m1)

/-! ## Facade (`pathlib.go`) -/

/-- A HEAD response for the URL arm of `Path.Stat`: HTTP status and the
parsed `Content-Length` (0 when the header is absent or unparsable). -/
structure HttpResp where
  status : Int
  contentLength : Int
deriving DecidableEq

/-- `Path.ConnectionDetails()`: only for SFTP paths, with the port
converted by `strconv.Atoi`. -/
def goConnectionDetails (p : GoPath) : Except PathE ConnectionDetails :=
  if !p.isSftp then .error ⟨gs "connection-details", p.path, .errGeneric⟩
  else
    match goAtoi p.port with
    | none => .error ⟨gs "connection-details", p.path, .errGeneric⟩
    | some portI =>
      .ok { hostname := p.host, port := portI,
            username := p.username, password := p.password }

/-- `Path.Stat`: validate, then dispatch to the HEAD request (URL), the
SFTP stat, or the local stat. `head` is the outcome of the HEAD request
(`none`: the request itself failed). -/
def goStat (p : GoPath) (σl : Fs) (m : Manager) (now : Nat)
    (dial : List (Option Nat)) (σr : Fs) (head : Option HttpResp) :
    Except PathE GoFileInfo :=
  if !goValidate p then .error ⟨gs "stat", p.path, .errValidate⟩
  else if p.isUrl then
    match head with
    | none => .error ⟨gs "stat", p.path, .errOsFail⟩
    | some r =>
      if r.status < 200 ∨ r.status ≥ 300 then
        .error ⟨gs "stat", p.path, .errGeneric⟩
      else
        .ok { name := goName p, size := r.contentLength,
              isDir := strEndsWith p.path (gs "/") }
  else if p.isSftp then
    match goConnectionDetails p with
    | .error e => .error e
    | .ok cd => (sftpStat m now dial σr p.path cd).1
  else localStat σl p.path

/-- `Path.Exists`: a nil `Stat` error. -/
def goExists (p : GoPath) (σl : Fs) (m : Manager) (now : Nat)
    (dial : List (Option Nat)) (σr : Fs) (head : Option HttpResp) : Bool :=
  match goStat p σl m now dial σr head with
  | .ok _ => true
  | .error _ => false

/-- `Path.IsDir`: `false` outright for URLs, otherwise `Stat` must
succeed and report a directory. -/
def goIsDir (p : GoPath) (σl : Fs) (m : Manager) (now : Nat)
    (dial : List (Option Nat)) (σr : Fs) (head : Option HttpResp) : Bool :=
  if p.isUrl then false
  else
    match goStat p σl m now dial σr head with
    | .ok i => i.isDir
    | .error _ => false

/-- `Path.IsFile`: `true` outright for URLs, otherwise `Stat` must
succeed and report a non-directory. -/
def goIsFile (p : GoPath) (σl : Fs) (m : Manager) (now : Nat)
    (dial : List (Option Nat)) (σr : Fs) (head : Option HttpResp) : Bool :=
  if p.isUrl then true
  else
    match goStat p σl m now dial σr head with
    | .ok i => !i.isDir
    | .error _ => false

/-! ## The full `MoveTo` (`pathlib.go:855`) over all four backend pairs

`MoveTo` passes `overwrite` but no `CopyOptions` to the per-pair `Move`
functions, so inside every arm the options are the defaults:
`Recursive = false` (the recursive `copyDir`s are unreachable from
`MoveTo`), `FollowSymlinks = false`, `PreserveAttributes = true`,
`Permissions = 0644`. The world is the local filesystem `σl` plus one
remote filesystem per SFTP endpoint, keyed by hostname and port
(`RFs`); the global manager, the SSH dial outcomes and `time.Now()`
travel in an `SftpEnv`, one dial-outcome list per `GetClient` call. -/

/-- The remote filesystems, one per `(hostname, port)` endpoint. -/
abbrev RFs := List ((GoStr × Int) × Fs)

/-- The filesystem of endpoint `k` (an endpoint never stored is an
empty server: only the root directory). -/
def rfsGet (w : RFs) (k : GoStr × Int) : Fs :=
  ((w.find? (fun kv => kv.1 == k)).map (·.2)).getD []

/-- Replace the filesystem of endpoint `k`. -/
def rfsSet (w : RFs) (k : GoStr × Int) (σ : Fs) : RFs :=
  (k, σ) :: w.filter (fun kv => !(kv.1 == k))

/-- The SFTP-side mutable state a `MoveTo` call threads: the global
manager, `time.Now()`, and one dial-outcome list per upcoming
`GetClient` call. -/
structure SftpEnv where
  m : Manager
  now : Nat
  dials : List (List (Option Nat))
deriving DecidableEq

/-- `sftpmanager.GetClient` acting on the threaded state: runs
`getClientM` on the next dial-outcome list. -/
def getClientE (env : SftpEnv) (cd : ConnectionDetails) :
    Except ErrKind Nat × SftpEnv :=
  match getClientM env.m env.now (env.dials.headD []) cd with
  | (r, m1) => (r, { env with m := m1, dials := env.dials.tail })

/-- `Path.Stat` with the threaded state (the facade's `Exists` calls go
through the global manager and mutate it); same dispatch as `goStat`. -/
def goStatE (σl : Fs) (w : RFs) (head : Option HttpResp) (env : SftpEnv)
    (p : GoPath) : Except PathE GoFileInfo × SftpEnv :=
  if !goValidate p then (.error ⟨gs "stat", p.path, .errValidate⟩, env)
  else if p.isUrl then
    (match head with
     | none => .error ⟨gs "stat", p.path, .errOsFail⟩
     | some r =>
       if r.status < 200 ∨ r.status ≥ 300 then
         .error ⟨gs "stat", p.path, .errGeneric⟩
       else
         .ok { name := goName p, size := r.contentLength,
               isDir := strEndsWith p.path (gs "/") }, env)
  else if p.isSftp then
    match goConnectionDetails p with
    | .error e => (.error e, env)
    | .ok cd =>
      match getClientE env cd with
      | (.error e, env1) => (.error ⟨gs "sftp-stat-get-client", p.path, e⟩, env1)
      | (.ok _, env1) =>
        match fsStat (rfsGet w (cd.hostname, cd.port)) p.path with
        | none => (.error ⟨gs "sftp-stat", p.path, .errNotExist⟩, env1)
        | some e => (.ok (infoOf p.path e), env1)
  else (localStat σl p.path, env)

/-- `pathlocalsftp.Copy` as invoked by `pathlocalsftp.Move` (default
options, so `Recursive = false` and a directory source fails with
`fs.ErrInvalid`; entries are never symlinks): `os.Stat` the source, get
a client, then `copyFile`: `os.Open`, `client.Create`, the buffered
loop, `client.Chmod`. -/
def localsftpCopy (σl : Fs) (w : RFs) (env : SftpEnv) (src dest : GoStr)
    (cd : ConnectionDetails) : Except PathE Unit × RFs × SftpEnv :=
  let key := (cd.hostname, cd.port)
  match fsStat σl src with
  | none => (.error ⟨gs "stat", src, .errNotExist⟩, w, env)
  | some srcE =>
    match getClientE env cd with
    | (.error e, env1) => (.error ⟨gs "sftp-get-client", dest, e⟩, w, env1)
    | (.ok _, env1) =>
      match srcE with
      | .fdir => (.error ⟨gs "copy", src, .errInvalid⟩, w, env1)
      | .ffile content =>
        match osCreate (gs "sftp-create") (rfsGet w key) dest content with
        | (.error e, _) => (.error e, w, env1)
        | (.ok _, σr1) =>
          if (fsStat σr1 dest).isSome then (.ok (), rfsSet w key σr1, env1)
          else (.error ⟨gs "sftp-chmod", dest, .errOsFail⟩, rfsSet w key σr1, env1)

/-- The tail of `pathlocalsftp.Move` after its destination check:
`client.MkdirAll` the parent, `Copy` (errors re-wrapped under
`local-to-sftp-copy` with the inner kind), then delete the source
locally (`os.RemoveAll` for a directory, `os.Remove` for a file). -/
def localsftpMoveRest (σl : Fs) (w1 : RFs) (env1 : SftpEnv) (src dest : GoStr)
    (cd : ConnectionDetails) (srcE : FsEntry) :
    Except PathE Unit × Fs × RFs × SftpEnv :=
  match osMkdirAll ((goDir dest).length + 1) (rfsGet w1 (cd.hostname, cd.port))
      (goDir dest) with
  | .error _ => (.error ⟨gs "sftp-mkdir", goDir dest, .errGeneric⟩, σl, w1, env1)
  | .ok σr1 =>
    match localsftpCopy σl (rfsSet w1 (cd.hostname, cd.port) σr1) env1 src dest cd with
    | (.error e, w3, env2) =>
      (.error ⟨gs "local-to-sftp-copy", src, e.kind⟩, σl, w3, env2)
    | (.ok _, w3, env2) =>
      match srcE with
      | .fdir => (.ok (), fsEraseSub σl src, w3, env2)
      | .ffile _ =>
        if (fsStat σl src).isSome then (.ok (), fsErase σl src, w3, env2)
        else (.error ⟨gs "remove-file", src, .errNotExist⟩, σl, w3, env2)

/-- `pathlocalsftp.Move` (the `Move` of `operations/localsftp`):
`os.Stat` the source, get a client, `client.Stat` the destination (an
existing destination without `overwrite` is a plain `fmt.Errorf`, with
`overwrite` it is `client.Remove`d — failing on a non-empty directory),
then `localsftpMoveRest`. -/
def localsftpMove (σl : Fs) (w : RFs) (env : SftpEnv) (src dest : GoStr)
    (cd : ConnectionDetails) (overwrite : Bool) :
    Except PathE Unit × Fs × RFs × SftpEnv :=
  match fsStat σl src with
  | none => (.error ⟨gs "stat", src, .errNotExist⟩, σl, w, env)
  | some srcE =>
    match getClientE env cd with
    | (.error e, env1) => (.error ⟨gs "sftp-move-get-client", dest, e⟩, σl, w, env1)
    | (.ok _, env1) =>
      match fsStat (rfsGet w (cd.hostname, cd.port)) dest with
      | none => localsftpMoveRest σl w env1 src dest cd srcE
      | some dE =>
        if ¬overwrite then (.error ⟨gs "move", dest, .errGeneric⟩, σl, w, env1)
        else
          if dE = .fdir ∧
              (fsReadDir (rfsGet w (cd.hostname, cd.port)) dest).length > 0 then
            (.error ⟨gs "sftp-remove", dest, .errOsFail⟩, σl, w, env1)
          else
            localsftpMoveRest σl
              (rfsSet w (cd.hostname, cd.port)
                (fsErase (rfsGet w (cd.hostname, cd.port)) dest))
              env1 src dest cd srcE

/-- `pathsftplocal.Copy` as invoked by `pathsftplocal.Move` (default
options): get a client, `client.Stat` the source (a directory fails
with `fs.ErrInvalid` because `Recursive = false`), then `copyFile`:
`client.Open`, `os.OpenFile(CREATE|TRUNC)`, the loop, `Sync`, and
`os.Chtimes` (`PreserveAttributes = true`). -/
def sftplocalCopy (σl : Fs) (w : RFs) (env : SftpEnv) (src dest : GoStr)
    (cd : ConnectionDetails) : Except PathE Unit × Fs × SftpEnv :=
  let key := (cd.hostname, cd.port)
  match getClientE env cd with
  | (.error e, env1) => (.error ⟨gs "sftp-copy-get-client-src", src, e⟩, σl, env1)
  | (.ok _, env1) =>
    match fsStat (rfsGet w key) src with
    | none => (.error ⟨gs "sftp-stat", src, .errNotExist⟩, σl, env1)
    | some .fdir => (.error ⟨gs "sftp-copy", src, .errInvalid⟩, σl, env1)
    | some (.ffile content) =>
      match osCreate (gs "create") σl dest content with
      | (.error e, _) => (.error e, σl, env1)
      | (.ok _, σl1) =>
        if (fsStat σl1 dest).isSome then (.ok (), σl1, env1)
        else (.error ⟨gs "chtimes", dest, .errNotExist⟩, σl1, env1)

/-- `pathsftplocal.Move` (`Move` of `operations/sftplocal`): get a
client, `client.Stat` the source, `os.Stat` the destination (an
existing destination without `overwrite` is a plain `fmt.Errorf`; with
`overwrite` nothing is removed — "handled during the copy"),
`os.MkdirAll` the parent, `Copy` (errors re-wrapped under
`sftp-local-copy`), then delete the source remotely
(`client.RemoveAll` / `client.Remove`). -/
def sftplocalMove (σl : Fs) (w : RFs) (env : SftpEnv) (src dest : GoStr)
    (cd : ConnectionDetails) (overwrite : Bool) :
    Except PathE Unit × Fs × RFs × SftpEnv :=
  let key := (cd.hostname, cd.port)
  match getClientE env cd with
  | (.error e, env1) => (.error ⟨gs "sftp-move-get-client", src, e⟩, σl, w, env1)
  | (.ok _, env1) =>
    match fsStat (rfsGet w key) src with
    | none => (.error ⟨gs "sftp-stat", src, .errNotExist⟩, σl, w, env1)
    | some srcE =>
      if (fsStat σl dest).isSome ∧ ¬overwrite then
        (.error ⟨gs "move", dest, .errGeneric⟩, σl, w, env1)
      else
        match osMkdirAll ((goDir dest).length + 1) σl (goDir dest) with
        | .error _ => (.error ⟨gs "mkdir", goDir dest, .errGeneric⟩, σl, w, env1)
        | .ok σl1 =>
          match sftplocalCopy σl1 w env1 src dest cd with
          | (.error e, σl2, env2) =>
            (.error ⟨gs "sftp-local-copy", src, e.kind⟩, σl2, w, env2)
          | (.ok _, σl2, env2) =>
            match srcE with
            | .fdir =>
              (.ok (), σl2, rfsSet w key (fsEraseSub (rfsGet w key) src), env2)
            | .ffile _ =>
              if (fsStat (rfsGet w key) src).isSome then
                (.ok (), σl2, rfsSet w key (fsErase (rfsGet w key) src), env2)
              else (.error ⟨gs "sftp-remove-file", src, .errNotExist⟩, σl2, w, env2)

/-- `pathsftpsftp.Copy` as invoked by `pathsftpsftp.Move`'s
different-server branch (default options; `sameServer` is false there,
by the very condition that selected the branch, so `copyFile`'s
`GetSSHSession` fast path is skipped): get the source client,
`client.Stat` the source (a directory fails with `fs.ErrInvalid`),
then the cross-server `copyFile`: get the destination client,
`clientSrc.Open`, `clientDest.Create`, the loop, `Chmod`, `Chtimes`. -/
def sftpsftpCopyFromMove (w : RFs) (env : SftpEnv) (src dest : GoStr)
    (cdSrc cdDest : ConnectionDetails) : Except PathE Unit × RFs × SftpEnv :=
  let keyS := (cdSrc.hostname, cdSrc.port)
  let keyD := (cdDest.hostname, cdDest.port)
  match getClientE env cdSrc with
  | (.error e, env1) => (.error ⟨gs "sftp-copy-get-client-src", src, e⟩, w, env1)
  | (.ok _, env1) =>
    match fsStat (rfsGet w keyS) src with
    | none => (.error ⟨gs "sftp-stat", src, .errNotExist⟩, w, env1)
    | some .fdir => (.error ⟨gs "sftp-copy", src, .errInvalid⟩, w, env1)
    | some (.ffile content) =>
      match getClientE env1 cdDest with
      | (.error e, env2) =>
        (.error ⟨gs "sftp-copy-get-client-dest", dest, e⟩, w, env2)
      | (.ok _, env2) =>
        match osCreate (gs "sftp-create") (rfsGet w keyD) dest content with
        | (.error e, _) => (.error e, w, env2)
        | (.ok _, σd1) =>
          if (fsStat σd1 dest).isSome then (.ok (), rfsSet w keyD σd1, env2)
          else (.error ⟨gs "sftp-chmod", dest, .errOsFail⟩, rfsSet w keyD σd1, env2)

/-- The `client.Rename` tail of the same-server branch of
`pathsftpsftp.Move` (`renameOk` is the environment's verdict on the
rename request). -/
def sftpsftpRenameRest (σl : Fs) (w : RFs) (env1 : SftpEnv) (src dest : GoStr)
    (keyS : GoStr × Int) (σ2 : Fs) (renameOk : Bool) :
    Except PathE Unit × Fs × RFs × SftpEnv :=
  match osRename σ2 src dest renameOk with
  | .error _ =>
    (.error ⟨gs "sftp-rename", src, .errOsFail⟩, σl, rfsSet w keyS σ2, env1)
  | .ok σ3 => (.ok (), σl, rfsSet w keyS σ3, env1)

/-- `pathsftpsftp.Move`: get the source client, `client.Stat` the
source, then branch on `sameServer` (hostname, port and username all
equal). Same server: `MkdirAll` the parent, stat the destination (an
existing one without `overwrite` is a plain `fmt.Errorf`, with
`overwrite` a `client.Remove`), and the `client.Rename` of
`sftpsftpRenameRest`. Different servers: `Copy` (errors re-wrapped
under `sftp-move-copy` with the inner kind), then delete the source
(`client.RemoveAll` / `client.Remove`). -/
def sftpsftpMove (σl : Fs) (w : RFs) (env : SftpEnv) (src dest : GoStr)
    (cdSrc cdDest : ConnectionDetails) (overwrite renameOk : Bool) :
    Except PathE Unit × Fs × RFs × SftpEnv :=
  match getClientE env cdSrc with
  | (.error e, env1) => (.error ⟨gs "sftp-move-get-client-src", src, e⟩, σl, w, env1)
  | (.ok _, env1) =>
    match fsStat (rfsGet w (cdSrc.hostname, cdSrc.port)) src with
    | none => (.error ⟨gs "sftp-stat", src, .errNotExist⟩, σl, w, env1)
    | some srcE =>
      if cdSrc.hostname = cdDest.hostname ∧ cdSrc.port = cdDest.port ∧
          cdSrc.username = cdDest.username then
        match osMkdirAll ((goDir dest).length + 1)
            (rfsGet w (cdSrc.hostname, cdSrc.port)) (goDir dest) with
        | .error _ => (.error ⟨gs "sftp-mkdir", goDir dest, .errGeneric⟩, σl, w, env1)
        | .ok σ1 =>
          match fsStat σ1 dest with
          | none =>
            sftpsftpRenameRest σl w env1 src dest (cdSrc.hostname, cdSrc.port)
              σ1 renameOk
          | some dE =>
            if ¬overwrite then
              (.error ⟨gs "sftp-move", dest, .errGeneric⟩, σl,
                rfsSet w (cdSrc.hostname, cdSrc.port) σ1, env1)
            else
              if dE = .fdir ∧ (fsReadDir σ1 dest).length > 0 then
                (.error ⟨gs "sftp-remove", dest, .errOsFail⟩, σl,
                  rfsSet w (cdSrc.hostname, cdSrc.port) σ1, env1)
              else
                sftpsftpRenameRest σl w env1 src dest (cdSrc.hostname, cdSrc.port)
                  (fsErase σ1 dest) renameOk
      else
        match sftpsftpCopyFromMove w env1 src dest cdSrc cdDest with
        | (.error e, w2, env2) =>
          (.error ⟨gs "sftp-move-copy", src, e.kind⟩, σl, w2, env2)
        | (.ok _, w2, env2) =>
          match srcE with
          | .fdir =>
            (.ok (), σl,
              rfsSet w2 (cdSrc.hostname, cdSrc.port)
                (fsEraseSub (rfsGet w2 (cdSrc.hostname, cdSrc.port)) src), env2)
          | .ffile _ =>
            if (fsStat (rfsGet w2 (cdSrc.hostname, cdSrc.port)) src).isSome then
              (.ok (), σl,
                rfsSet w2 (cdSrc.hostname, cdSrc.port)
                  (fsErase (rfsGet w2 (cdSrc.hostname, cdSrc.port)) src), env2)
            else (.error ⟨gs "sftp-remove-file", src, .errNotExist⟩, σl, w2, env2)

/-- The dispatch switch of `MoveTo` (`pathlib.go:872-900`), after the
facade checks have passed. -/
def goMoveToArm (σl : Fs) (w : RFs) (env : SftpEnv)
    (renameOk renameTmpOk : Bool) (p d : GoPath) (overwrite : Bool) :
    Except PathE Unit × Fs × RFs × SftpEnv :=
  if p.isSftp ∧ d.isSftp then
    match goConnectionDetails p with
    | .error e => (.error e, σl, w, env)
    | .ok cdS =>
      match goConnectionDetails d with
      | .error e => (.error e, σl, w, env)
      | .ok cdD => sftpsftpMove σl w env p.path d.path cdS cdD overwrite renameOk
  else if p.isSftp ∧ ¬d.isSftp then
    match goConnectionDetails p with
    | .error e => (.error e, σl, w, env)
    | .ok cdS => sftplocalMove σl w env p.path d.path cdS overwrite
  else if ¬p.isSftp ∧ d.isSftp then
    match goConnectionDetails d with
    | .error e => (.error e, σl, w, env)
    | .ok cdD => localsftpMove σl w env p.path d.path cdD overwrite
  else
    match llMove σl renameOk renameTmpOk p.path d.path overwrite with
    | (r, σl1) => (r, σl1, w, env)

/-- `Path.MoveTo` (`pathlib.go:855`), all four dispatch arms: reject a
URL source, `Validate`, require `p.Exists()`, fail with
`pathmodels.ErrExist` on `dest.Exists() && !overwrite`, then switch on
`(p.isSftp, dest.isSftp)` into the per-pair `Move` functions
(`ConnectionDetails()` conversions may fail first). `renameOk` and
`renameTmpOk` are the environment's verdicts on the rename syscalls any
arm may attempt. -/
def goMoveTo (σl : Fs) (w : RFs) (head : Option HttpResp) (env : SftpEnv)
    (renameOk renameTmpOk : Bool) (p d : GoPath) (overwrite : Bool) :
    Except PathE Unit × Fs × RFs × SftpEnv :=
  if p.isUrl then (.error ⟨gs "move", p.path, .errGeneric⟩, σl, w, env)
  else if !goValidate p then (.error ⟨gs "move", p.path, .errValidate⟩, σl, w, env)
  else
    match goStatE σl w head env p with
    | (.error _, env1) => (.error ⟨gs "move", p.path, .errNotExist⟩, σl, w, env1)
    | (.ok _, env1) =>
      match goStatE σl w head env1 d with
      | (.ok _, env2) =>
        if ¬overwrite then (.error ⟨gs "move", d.path, .errExist⟩, σl, w, env2)
        else goMoveToArm σl w env2 renameOk renameTmpOk p d overwrite
      | (.error _, env2) => goMoveToArm σl w env2 renameOk renameTmpOk p d overwrite

/-- Where a non-URL path's entry lives in the world: the local
filesystem for a local path, the endpoint's filesystem (under the
`Atoi`-parsed port) for an SFTP path. -/
def worldStat (σl : Fs) (w : RFs) (q : GoPath) : Option FsEntry :=
  if q.isSftp then
    match goAtoi q.port with
    | none => none
    | some pt => fsStat (rfsGet w (q.host, pt)) q.path
  else fsStat σl q.path

/-- The pool key `ConnectionDetails()` of an SFTP path produces:
`user@host:port`. -/
def pathKey (q : GoPath) : GoStr :=
  cdString (applyDefaults
    { hostname := q.host, port := (goAtoi q.port).getD 0,
      username := q.username, password := q.password })

/-- The pool holds a live session under `key`. -/
def liveFor (m : Manager) (key : GoStr) : Prop :=
  ∃ kv, m.clients.find? (fun e => e.1 == key) = some kv ∧ kv.2.alive = true

/-! ## Observations and concrete scenarios used by the theorems -/

/-- Liveness of the pooled entry under `key`, as later probes see it. -/
def poolAlive (m : Manager) (key : GoStr) : Option Bool :=
  (m.clients.find? (fun e => e.1 == key)).map (fun e => e.2.alive)

/-- A sample set of connection details (password `p1`). -/
def exCd : ConnectionDetails :=
  { hostname := gs "h", port := 22, username := gs "u", password := gs "p1" }

/-- The same endpoint with a different password. -/
def exCd2 : ConnectionDetails :=
  { hostname := gs "h", port := 22, username := gs "u", password := gs "p2" }

/-- The pool key of `exCd`. -/
def exKey : GoStr := cdString (applyDefaults exCd)

/-- A pool at capacity (1 entry, `MaxConnections = 1`) whose sole entry
is a live session for `exKey`. -/
def exMgrFull : Manager :=
  { clients := [(exKey, { client := 7, alive := true, lastUsed := 0 })],
    maxIdleTime := 5, maxConnections := 1, cleanupInterval := 2 }

/-- A pool with room (`MaxConnections = 10`) holding a live session for
`exKey`. -/
def exMgrRoom : Manager := { exMgrFull with maxConnections := 10 }

/-- An empty pool with `MaxConnections = 1`. -/
def exMgrOne : Manager :=
  { clients := [], maxIdleTime := 5, maxConnections := 1, cleanupInterval := 2 }

/-- A local filesystem with two regular files. -/
def exFs : Fs := [(gs "/a", .ffile (gs "hello")), (gs "/b", .ffile (gs "old"))]

/-- The local path value `/a`. -/
def exSrc : GoPath := { path := gs "/a" }

/-- The local path value `/b`. -/
def exDest : GoPath := { path := gs "/b" }

/-- The local path value `/c` (not present in `exFs`). -/
def exDest2 : GoPath := { path := gs "/c" }

/-- A URL path value. -/
def exUrl : GoPath := { path := gs "https://h/x", isUrl := true }

/-- A registry that resolves every encoding name to `nil` (hence `Nop`),
the UTF-8 passthrough case. -/
def exReg : EncRegistry := fun _ => some none

/-- A remote filesystem holding one regular file `/r`. -/
def exRemoteFs : Fs := [(gs "/r", .ffile (gs "data"))]

/-- A remote world with the single endpoint `h:22` holding `exRemoteFs`. -/
def exW : RFs := [((gs "h", (22 : Int)), exRemoteFs)]

/-- The SFTP path value `sftp://u@h:22/r` (password `p1`). -/
def exDstSftp : GoPath :=
  { path := gs "/r", isSftp := true, host := gs "h", port := gs "22",
    username := gs "u", password := gs "p1" }

/-- Threaded SFTP state over the at-capacity pool `exMgrFull`, with
successful dial outcomes on every upcoming attempt. -/
def exEnvFull : SftpEnv :=
  { m := exMgrFull, now := 1, dials := [[some 9], [some 9], [some 9]] }

/-- Threaded SFTP state over the pool with room `exMgrRoom`. -/
def exEnvRoom : SftpEnv := { m := exMgrRoom, now := 1, dials := [] }

instance : Inhabited FsEntry := ⟨.fdir⟩
instance : Inhabited ClientInfo := ⟨⟨0, false, 0⟩⟩
instance : Inhabited Manager := ⟨⟨[], 0, 0, 0⟩⟩
instance : Inhabited ConnectionDetails := ⟨{ hostname := [], port := 0 }⟩
instance : Inhabited GoPath := ⟨{ path := [] }⟩
instance : Inhabited PathE := ⟨⟨[], [], .errGeneric⟩⟩
instance : Inhabited GoFileInfo := ⟨⟨[], 0, false⟩⟩
instance : Inhabited HttpResp := ⟨⟨0, 0⟩⟩

/-! ## Helper lemmas -/

/-- `find?` over a value-update map that keeps keys. -/
theorem find?_mapUpd (l : List (GoStr × ClientInfo)) (key : GoStr)
    (g : GoStr × ClientInfo → ClientInfo) :
    ((l.map (fun e => if e.1 == key then (e.1, g e) else e)).find?
        (fun e => e.1 == key))
      = (l.find? (fun e => e.1 == key)).map (fun e => (e.1, g e)) := by
  induction l with
  | nil => simp
  | cons hd tl ih =>
    cases hb : (hd.1 == key) with
    | true => simp [List.find?, hb]
    | false => simpa [List.find?, hb] using ih

/-- The root is always a directory. -/
theorem fsStat_root (σ : Fs) : fsStat σ (gs "/") = some .fdir := by
  unfold fsStat; simp

/-- Dropping the bindings of one key leaves lookups of another intact. -/
theorem find?_filter_ne (σ : Fs) (k q : GoStr) (hne : q ≠ k) :
    (σ.filter (fun kv => !(kv.1 == k))).find? (fun kv => kv.1 == q)
      = σ.find? (fun kv => kv.1 == q) := by
  induction σ with
  | nil => rfl
  | cons hd tl ih =>
    by_cases hk : hd.1 = k
    · have hqb : (hd.1 == q) = false := by
        refine beq_eq_false_iff_ne.mpr ?_
        rw [hk]; exact fun h => hne h.symm
      have hkb : (hd.1 == k) = true := by simp [hk]
      simp only [List.filter_cons, hkb, Bool.not_true, Bool.false_eq_true,
        if_false, List.find?, hqb]
      exact ih
    · have hkb : (hd.1 == k) = false := by simp [hk]
      by_cases hq : hd.1 = q
      · have hqb : (hd.1 == q) = true := by simp [hq]
        simp only [List.filter_cons, hkb, Bool.not_false, if_true, List.find?, hqb]
      · have hqb : (hd.1 == q) = false := by simp [hq]
        simp only [List.filter_cons, hkb, Bool.not_false, if_true, List.find?, hqb]
        exact ih

/-- Lookup after an insert. -/
theorem fsStat_fsInsert (σ : Fs) (k q : GoStr) (e : FsEntry) :
    fsStat (fsInsert σ k e) q =
      if q = gs "/" then some .fdir
      else if q = k then some e
      else fsStat σ q := by
  by_cases hroot : q = gs "/"
  · simp [fsStat, hroot]
  · by_cases hqk : q = k
    · have hb : (k == q) = true := by simp [hqk.symm]
      simp only [fsStat, fsInsert, hroot, if_false, List.find?, hb]
      rw [if_pos hqk]
      rfl
    · have hb : (k == q) = false := by
        refine beq_eq_false_iff_ne.mpr ?_
        exact fun h => hqk h.symm
      simp only [fsStat, fsInsert, hroot, if_false, List.find?, hb]
      rw [if_neg hqk, find?_filter_ne σ k q hqk]

/-- The retry loop never reports pool exhaustion. -/
theorem retryCreate_ne_poolExhausted (n : Nat) :
    ∀ (outcomes : List (Option Nat)) (m : Manager) (now : Nat) (key : GoStr),
      (retryCreate m now key n outcomes).1 ≠ .error .errPoolExhausted := by
  induction n with
  | zero => intro outcomes m now key; simp [retryCreate]
  | succ k ih =>
    intro outcomes m now key
    unfold retryCreate
    cases h : outcomes.head?.getD none with
    | none => simpa [createNewClient, h] using ih outcomes.tail m now key
    | some cid => simp [createNewClient, h]

/-- `GetClient` on a pool holding a live entry for the key and with room
to spare returns the pooled client and only refreshes `lastUsed`. -/
theorem getClientM_existing (m : Manager) (now : Nat) (dial : List (Option Nat))
    (cd : ConnectionDetails) (kv : GoStr × ClientInfo)
    (hfind : m.clients.find? (fun e => e.1 == cdString (applyDefaults cd)) = some kv)
    (halive : kv.2.alive = true) (hlen : m.clients.length < m.maxConnections) :
    getClientM m now dial cd =
      (.ok kv.2.client,
        { m with clients := m.clients.map (fun e =>
            if e.1 == cdString (applyDefaults cd) then
              (e.1, { e.2 with lastUsed := now }) else e) }) := by
  unfold getClientM getExistingClient
  have hnot : ¬(m.clients.length ≥ m.maxConnections) := by omega
  simp only [hnot, if_false, hfind, halive, if_true]

/-- `poolAlive` after a value update that keeps keys. -/
theorem poolAlive_mapUpd (m : Manager) (key : GoStr)
    (g : GoStr × ClientInfo → ClientInfo) (kv : GoStr × ClientInfo)
    (hfind : m.clients.find? (fun e => e.1 == key) = some kv) :
    poolAlive { m with clients := m.clients.map (fun e =>
        if e.1 == key then (e.1, g e) else e) } key = some (g kv).alive := by
  unfold poolAlive
  dsimp only
  rw [find?_mapUpd, hfind]
  rfl

/-- Success of `osCreate` pins down the new state: the file holds the
written bytes and the target is not the root. -/
theorem osCreate_ok (op : GoStr) (σ : Fs) (p data : GoStr) (σ' : Fs)
    (hw : osCreate op σ p data = (.ok (), σ')) :
    σ' = fsInsert σ p (.ffile data) ∧ p ≠ gs "/" := by
  unfold osCreate at hw
  cases hst : fsStat σ p with
  | none =>
    simp only [hst] at hw
    by_cases hpar : fsStat σ (goDir p) = some .fdir
    · rw [if_pos hpar] at hw
      refine ⟨by have := congrArg Prod.snd hw; simpa using this.symm, ?_⟩
      intro h; rw [h, fsStat_root] at hst; cases hst
    · rw [if_neg hpar] at hw; simp at hw
  | some e =>
    cases e with
    | fdir => simp only [hst] at hw; simp at hw
    | ffile c =>
      simp only [hst] at hw
      by_cases hpar : fsStat σ (goDir p) = some .fdir
      · rw [if_pos hpar] at hw
        refine ⟨by have := congrArg Prod.snd hw; simpa using this.symm, ?_⟩
        intro h; rw [h, fsStat_root] at hst; cases hst
      · rw [if_neg hpar] at hw; simp at hw

/-- Success of `osMkdir` pins down the state: the target was absent and
is now a directory. -/
theorem osMkdir_ok (σ : Fs) (p : GoStr) (σ1 : Fs) (h : osMkdir σ p = .ok σ1) :
    fsStat σ p = none ∧ σ1 = fsInsert σ p .fdir := by
  unfold osMkdir at h
  by_cases h1 : (fsStat σ p).isSome
  · rw [if_pos h1] at h; cases h
  · rw [if_neg h1] at h
    by_cases h2 : fsStat σ (goDir p) = some .fdir
    · rw [if_pos h2] at h
      exact ⟨Option.not_isSome_iff_eq_none.mp h1, (Except.ok.inj h).symm⟩
    · rw [if_neg h2] at h; cases h

/-- Inserting a fresh entry preserves every present binding. -/
theorem fsStat_fsInsert_mono (σ : Fs) (p k : GoStr) (e' e : FsEntry)
    (hp : fsStat σ p = none) (hk : fsStat σ k = some e) :
    fsStat (fsInsert σ p e') k = some e := by
  rw [fsStat_fsInsert]
  by_cases hr : k = gs "/"
  · subst hr
    rw [fsStat_root] at hk
    rw [if_pos rfl]
    exact hk
  · rw [if_neg hr]
    by_cases hpk : k = p
    · subst hpk; rw [hk] at hp; cases hp
    · rw [if_neg hpk]; exact hk

/-- The parent-creation loop only adds entries; present bindings
survive. -/
theorem mkdirLoop_mono (parts : List GoStr) :
    ∀ (σ : Fs) (cur : GoStr) (σ' : Fs),
      mkdirLoop σ cur parts = (.ok (), σ') →
      ∀ k e, fsStat σ k = some e → fsStat σ' k = some e := by
  induction parts with
  | nil =>
    intro σ cur σ' h k e hk
    have : σ = σ' := by simpa [mkdirLoop] using congrArg Prod.snd h
    exact this ▸ hk
  | cons part rest ih =>
    intro σ cur σ' h k e hk
    unfold mkdirLoop at h
    cases hm : osMkdir σ (goJoin2 cur part) with
    | ok σ2 =>
      simp only [hm] at h
      obtain ⟨hnone, hσ2⟩ := osMkdir_ok _ _ _ hm
      exact ih σ2 _ σ' h k e (hσ2 ▸ fsStat_fsInsert_mono σ _ k _ e hnone hk)
    | error e2 =>
      simp only [hm] at h
      by_cases hd : fsStat σ (goJoin2 cur part) = some .fdir
      · rw [if_pos hd] at h; exact ih σ _ σ' h k e hk
      · rw [if_neg hd] at h; simp at h

/-- Every binding the parent-creation loop produces is either inherited
or a fresh directory. -/
theorem mkdirLoop_stat (parts : List GoStr) :
    ∀ (σ : Fs) (cur : GoStr) (σ' : Fs),
      mkdirLoop σ cur parts = (.ok (), σ') →
      ∀ k, fsStat σ' k = fsStat σ k ∨ fsStat σ' k = some .fdir := by
  induction parts with
  | nil =>
    intro σ cur σ' h k
    have : σ = σ' := by simpa [mkdirLoop] using congrArg Prod.snd h
    exact .inl (this ▸ rfl)
  | cons part rest ih =>
    intro σ cur σ' h k
    unfold mkdirLoop at h
    cases hm : osMkdir σ (goJoin2 cur part) with
    | ok σ2 =>
      simp only [hm] at h
      obtain ⟨hnone, hσ2⟩ := osMkdir_ok _ _ _ hm
      rcases ih σ2 _ σ' h k with h2 | h2
      · rw [h2, hσ2, fsStat_fsInsert]
        by_cases hr : k = gs "/"
        · exact .inr (by rw [if_pos hr])
        · rw [if_neg hr]
          by_cases hpk : k = goJoin2 cur part
          · exact .inr (by rw [if_pos hpk])
          · exact .inl (by rw [if_neg hpk])
      · exact .inr h2
    | error e2 =>
      simp only [hm] at h
      by_cases hd : fsStat σ (goJoin2 cur part) = some .fdir
      · rw [if_pos hd] at h; exact ih σ _ σ' h k
      · rw [if_neg hd] at h; simp at h

/-- Re-running a successful parent-creation loop changes nothing and
succeeds: every `Mkdir` now fails on an existing directory, which the
loop forgives. -/
theorem mkdirLoop_idem (parts : List GoStr) :
    ∀ (σ : Fs) (cur : GoStr) (σ' : Fs),
      mkdirLoop σ cur parts = (.ok (), σ') →
      mkdirLoop σ' cur parts = (.ok (), σ') := by
  induction parts with
  | nil => intro σ cur σ' _; rfl
  | cons part rest ih =>
    intro σ cur σ' h
    unfold mkdirLoop at h ⊢
    cases hm : osMkdir σ (goJoin2 cur part) with
    | ok σ2 =>
      simp only [hm] at h
      obtain ⟨hnone, hσ2⟩ := osMkdir_ok _ _ _ hm
      have hcur2 : fsStat σ2 (goJoin2 cur part) = some .fdir := by
        rw [hσ2, fsStat_fsInsert]
        by_cases hr : goJoin2 cur part = gs "/"
        · rw [if_pos hr]
        · rw [if_neg hr, if_pos rfl]
      have hcur' : fsStat σ' (goJoin2 cur part) = some .fdir :=
        mkdirLoop_mono rest σ2 _ σ' h _ _ hcur2
      have hm' : osMkdir σ' (goJoin2 cur part) = .error .errExist := by
        unfold osMkdir
        rw [if_pos (by rw [hcur']; rfl)]
      simp only [hm', if_pos hcur']
      exact ih σ2 _ σ' h
    | error e2 =>
      simp only [hm] at h
      by_cases hd : fsStat σ (goJoin2 cur part) = some .fdir
      · rw [if_pos hd] at h
        have hcur' : fsStat σ' (goJoin2 cur part) = some .fdir :=
          mkdirLoop_mono rest σ _ σ' h _ _ hd
        have hm' : osMkdir σ' (goJoin2 cur part) = .error .errExist := by
          unfold osMkdir
          rw [if_pos (by rw [hcur']; rfl)]
        simp only [hm', if_pos hcur']
        exact ih σ _ σ' h
      · rw [if_neg hd] at h; simp at h

/-- A successful `os.MkdirAll` leaves the target as a directory. -/
theorem osMkdirAll_ok_isDir (fuel : Nat) :
    ∀ (σ : Fs) (p : GoStr) (σ' : Fs),
      osMkdirAll fuel σ p = .ok σ' → fsStat σ' p = some .fdir := by
  induction fuel with
  | zero => intro σ p σ' h; cases h
  | succ f ih =>
    intro σ p σ' h
    unfold osMkdirAll at h
    cases hst : fsStat σ p with
    | some e =>
      cases e with
      | fdir =>
        simp only [hst] at h
        cases h
        exact hst
      | ffile c => simp only [hst] at h; cases h
    | none =>
      simp only [hst] at h
      cases hrec : osMkdirAll f σ (goDir p) with
      | error e2 => rw [hrec] at h; cases h
      | ok σ1 =>
        rw [hrec] at h
        cases hm : osMkdir σ1 p with
        | ok σ2 =>
          simp only [hm] at h
          cases h
          obtain ⟨hnone, hσ2⟩ := osMkdir_ok _ _ _ hm
          rw [hσ2, fsStat_fsInsert]
          by_cases hr : p = gs "/"
          · rw [if_pos hr]
          · rw [if_neg hr, if_pos rfl]
        | error e2 =>
          simp only [hm] at h
          by_cases hd : fsStat σ1 p = some .fdir
          · rw [if_pos hd] at h
            cases h
            exact hd
          · rw [if_neg hd] at h; cases h

/-- A successful `localMakeDir` leaves the cleaned target as a
directory. -/
theorem localMakeDir_ok_isDir (σ : Fs) (p : GoStr) (parents existsOk : Bool)
    (σ' : Fs) (h : localMakeDir σ p parents existsOk = (.ok (), σ')) :
    fsStat σ' (cleanPath p) = some .fdir := by
  unfold localMakeDir at h
  cases hst : fsStat σ (cleanPath p) with
  | some e =>
    cases e with
    | fdir =>
      simp only [hst] at h
      by_cases hok : existsOk = true
      · rw [if_pos trivial, if_pos hok] at h
        have : σ = σ' := by simpa using congrArg Prod.snd h
        exact this ▸ hst
      · rw [if_pos trivial, if_neg hok] at h; simp at h
    | ffile c => simp only [hst] at h; simp at h
  | none =>
    simp only [hst] at h
    by_cases hp : parents = true
    · rw [hp] at h
      simp only [Bool.not_true, Bool.false_eq_true, if_false] at h
      cases hall : osMkdirAll (List.length (cleanPath p) + 1) σ (cleanPath p) with
      | ok σ1 =>
        rw [hall] at h
        have : σ1 = σ' := by simpa using congrArg Prod.snd h
        exact this ▸ osMkdirAll_ok_isDir _ _ _ _ hall
      | error e2 => rw [hall] at h; simp at h
    · have hp' : parents = false := by revert hp; cases parents <;> simp
      rw [hp'] at h
      simp only [Bool.not_false, if_true] at h
      cases hm : osMkdir σ (cleanPath p) with
      | ok σ1 =>
        rw [hm] at h
        have hσ : σ1 = σ' := by simpa using congrArg Prod.snd h
        obtain ⟨hnone, hσ1⟩ := osMkdir_ok _ _ _ hm
        rw [← hσ, hσ1, fsStat_fsInsert]
        by_cases hr : cleanPath p = gs "/"
        · rw [if_pos hr]
        · rw [if_neg hr, if_pos rfl]
      | error e2 => rw [hm] at h; simp at h

/-- Re-running a successful `sftpMakeDirBody` (with `existsOk = true`)
succeeds and changes nothing. -/
theorem sftpMakeDirBody_idem (σ : Fs) (path : GoStr) (parents : Bool) (σ2 : Fs)
    (h : sftpMakeDirBody σ path parents true = (.ok (), σ2)) :
    sftpMakeDirBody σ2 path parents true = (.ok (), σ2) := by
  unfold sftpMakeDirBody at h ⊢
  cases hst : fsStat σ path with
  | some e =>
    cases e with
    | fdir =>
      simp only [hst] at h
      rw [if_pos trivial, if_pos trivial] at h
      have hσ : σ = σ2 := by simpa using congrArg Prod.snd h
      subst hσ
      simp [hst]
    | ffile c => simp only [hst] at h; simp at h
  | none =>
    simp only [hst] at h
    by_cases hp : parents = true
    · rw [hp] at h ⊢
      simp only [Bool.not_true, Bool.false_eq_true, if_false] at h ⊢
      cases hst2 : fsStat σ2 path with
      | some e2 =>
        cases e2 with
        | fdir => simp
        | ffile c =>
          exfalso
          rcases mkdirLoop_stat (goSplitList path) σ (gs "/") σ2 h path with h2 | h2
          · rw [hst2, hst] at h2; cases h2
          · rw [hst2] at h2; cases h2
      | none => exact mkdirLoop_idem _ _ _ _ h
    · have hp' : parents = false := by revert hp; cases parents <;> simp
      rw [hp'] at h ⊢
      simp only [Bool.not_false, if_true] at h ⊢
      cases hm : osMkdir σ path with
      | ok σ1 =>
        simp only [hm] at h
        have hσ : σ1 = σ2 := by simpa using congrArg Prod.snd h
        obtain ⟨hnone, hσ1⟩ := osMkdir_ok _ _ _ hm
        have hd : fsStat σ2 path = some .fdir := by
          rw [← hσ, hσ1, fsStat_fsInsert]
          by_cases hr : path = gs "/"
          · rw [if_pos hr]
          · rw [if_neg hr, if_pos rfl]
        rw [hd]
        simp
      | error e2 => simp only [hm] at h; simp at h

/-- `moveFile` with `overwrite = false` can fail, but never with
`fs.ErrExist`. -/
theorem llMoveFile_no_existErr (σ : Fs) (r2 : Bool) (dest content : GoStr) :
    isExistErr (llMoveFile σ r2 dest content false).1 = false := by
  unfold llMoveFile
  simp only [Bool.false_eq_true, if_false, false_and]
  cases hst : fsStat σ dest with
  | none => simp only [hst]; split <;> (try split) <;> rfl
  | some e =>
    cases e with
    | fdir => simp only [hst]; rfl
    | ffile c => simp only [hst]; split <;> (try split) <;> rfl

/-- `pathlocallocal.Move` with `overwrite = false` onto a free
destination can fail, but never with `fs.ErrExist`. -/
theorem llMove_no_existErr (σ : Fs) (r1 r2 : Bool) (src dest : GoStr)
    (e0 : FsEntry) (hsrc : fsStat σ src = some e0) (hdst : fsStat σ dest = none) :
    isExistErr (llMove σ r1 r2 src dest false).1 = false := by
  unfold llMove
  simp only [hsrc]
  rw [if_neg (fun hc => by rw [hdst] at hc; exact absurd hc.1 (by simp))]
  cases hr : osRename σ src dest r1 with
  | ok σ1 => simp only [hr]; rfl
  | error er =>
    simp only [hr]
    cases e0 with
    | fdir => rfl
    | ffile content =>
      rcases hmf : llMoveFile σ r2 dest content false with ⟨res, σ1⟩
      cases res with
      | ok u => simp only [hmf]; rfl
      | error pe =>
        try simp only [hmf]
        have h := llMoveFile_no_existErr σ r2 dest content
        rw [hmf] at h
        exact h

/-- `find?` commutes with a key-preserving map. -/
theorem find?_map_keyfix (l : List (GoStr × ClientInfo))
    (f : GoStr × ClientInfo → GoStr × ClientInfo) (key : GoStr)
    (hf : ∀ e, (f e).1 = e.1) :
    (l.map f).find? (fun e => e.1 == key) =
      (l.find? (fun e => e.1 == key)).map f := by
  induction l with
  | nil => rfl
  | cons hd tl ih =>
    cases hb : (hd.1 == key) with
    | true =>
      have hfb : ((f hd).1 == key) = true := by rw [hf]; exact hb
      simp [List.find?, hfb, hb]
    | false =>
      have hfb : ((f hd).1 == key) = false := by rw [hf]; exact hb
      simp only [List.map, List.find?, hfb, hb]
      exact ih

/-- Refreshing `lastUsed` of one pool entry keeps every live session
live. -/
theorem liveFor_mapUpd (m : Manager) (key k : GoStr) (now : Nat)
    (h : liveFor m k) :
    liveFor { m with clients := m.clients.map (fun e =>
        if e.1 == key then (e.1, { e.2 with lastUsed := now }) else e) } k := by
  obtain ⟨kv, hfind, halive⟩ := h
  refine ⟨if kv.1 == key then (kv.1, { kv.2 with lastUsed := now }) else kv, ?_, ?_⟩
  · have hres := find?_map_keyfix m.clients
      (fun e => if e.1 == key then (e.1, { e.2 with lastUsed := now }) else e) k
      (fun e => by cases he : (e.1 == key) <;> simp [he])
    unfold liveFor at *
    dsimp only at hres ⊢
    rw [hres, hfind]
    rfl
  · cases hk : (kv.1 == key) <;> simp [hk, halive]

/-- The retry loop's error is always a failed-connect error. -/
theorem retryCreate_error_kind (n : Nat) :
    ∀ (outcomes : List (Option Nat)) (m : Manager) (now : Nat) (key : GoStr)
      (e : ErrKind), (retryCreate m now key n outcomes).1 = .error e →
      e = .errConnectFailed := by
  induction n with
  | zero =>
    intro outcomes m now key e h
    exact (Except.error.inj h).symm
  | succ k ih =>
    intro outcomes m now key e h
    unfold retryCreate at h
    cases hout : outcomes.head?.getD none with
    | none =>
      simp only [createNewClient, hout] at h
      exact ih outcomes.tail m now key e h
    | some cid => simp [createNewClient, hout] at h

/-- `GetClient` fails only with pool exhaustion or a failed connect. -/
theorem getClientM_error_kind (m : Manager) (now : Nat)
    (dial : List (Option Nat)) (cd : ConnectionDetails) (e : ErrKind)
    (h : (getClientM m now dial cd).1 = .error e) :
    e = .errPoolExhausted ∨ e = .errConnectFailed := by
  simp only [getClientM] at h
  split at h
  · exact .inl (Except.error.inj h).symm
  · split at h
    · exact absurd h (by simp)
    · exact .inr (retryCreate_error_kind _ _ _ _ _ _ h)

/-- The state-threaded `GetClient` never fails with `fs.ErrExist`. -/
theorem getClientE_ne_exist (env : SftpEnv) (cd : ConnectionDetails)
    (e : ErrKind) (env1 : SftpEnv) (h : getClientE env cd = (.error e, env1)) :
    (e == ErrKind.errExist) = false := by
  unfold getClientE at h
  rcases hg : getClientM env.m env.now (env.dials.headD []) cd with ⟨r, m1⟩
  rw [hg] at h
  have hr : r = .error e := congrArg Prod.fst h
  rcases getClientM_error_kind env.m env.now (env.dials.headD []) cd e
      (by rw [hg]; exact hr) with h1 | h1 <;> (subst h1; rfl)

/-- The state-threaded `GetClient` on a pool holding a live entry for
the key, with room to spare: the pooled client comes back and the pool
only refreshes `lastUsed`. -/
theorem getClientE_live (env : SftpEnv) (cd : ConnectionDetails)
    (kv : GoStr × ClientInfo)
    (hfind : env.m.clients.find?
      (fun e => e.1 == cdString (applyDefaults cd)) = some kv)
    (halive : kv.2.alive = true)
    (hcap : env.m.clients.length < env.m.maxConnections) :
    getClientE env cd =
      (.ok kv.2.client,
        { m := { env.m with clients := env.m.clients.map (fun e =>
            if e.1 == cdString (applyDefaults cd) then
              (e.1, { e.2 with lastUsed := env.now }) else e) },
          now := env.now, dials := env.dials.tail }) := by
  unfold getClientE
  rw [getClientM_existing env.m env.now (env.dials.headD []) cd kv hfind halive hcap]

/-- `ConnectionDetails()` fails only with generic errors. -/
theorem goConnectionDetails_ne_exist (p : GoPath) (e : PathE)
    (h : goConnectionDetails p = .error e) :
    (e.kind == ErrKind.errExist) = false := by
  unfold goConnectionDetails at h
  split at h
  · cases h; rfl
  · split at h
    · cases h; rfl
    · exact absurd h (by simp)

/-- `os.Create` (and `client.Create`) never fails with `fs.ErrExist`. -/
theorem osCreate_ne_exist (op : GoStr) (σ : Fs) (p data : GoStr) :
    isExistErr (osCreate op σ p data).1 = false := by
  unfold osCreate
  repeat' split
  all_goals rfl

/-- `moveFile` never fails with `fs.ErrExist` (either overwrite mode). -/
theorem llMoveFile_ne_exist (σ : Fs) (r2 : Bool) (dest content : GoStr)
    (ow : Bool) : isExistErr (llMoveFile σ r2 dest content ow).1 = false := by
  cases ow with
  | false => exact llMoveFile_no_existErr σ r2 dest content
  | true =>
    unfold llMoveFile
    simp only [eq_self_iff_true, if_true]
    repeat' split
    all_goals rfl

/-- `pathlocallocal.Move` never fails with `fs.ErrExist` (its own
destination check is a plain `fmt.Errorf`). -/
theorem llMove_ne_exist (σ : Fs) (r1 r2 : Bool) (src dest : GoStr) (ow : Bool) :
    isExistErr (llMove σ r1 r2 src dest ow).1 = false := by
  unfold llMove
  cases h1 : fsStat σ src with
  | none => rfl
  | some srcE =>
    simp only [h1]
    split
    · rfl
    · cases hr : osRename σ src dest r1 with
      | ok σ1 => simp only [hr]; rfl
      | error er =>
        simp only [hr]
        cases srcE with
        | fdir => rfl
        | ffile content =>
          rcases hmf : llMoveFile σ r2 dest content ow with ⟨res, σ1⟩
          try simp only [hmf]
          cases res with
          | ok u => rfl
          | error pe =>
            have h := llMoveFile_ne_exist σ r2 dest content ow
            rw [hmf] at h
            exact h

/-- `pathlocalsftp.Copy` never fails with `fs.ErrExist`. -/
theorem localsftpCopy_ne_exist (σl : Fs) (w : RFs) (env : SftpEnv)
    (src dest : GoStr) (cd : ConnectionDetails) :
    isExistErr (localsftpCopy σl w env src dest cd).1 = false := by
  unfold localsftpCopy
  cases h1 : fsStat σl src with
  | none => rfl
  | some srcE =>
    simp only [h1]
    rcases h2 : getClientE env cd with ⟨r2, env1⟩
    try simp only [h2]
    cases r2 with
    | error e => exact getClientE_ne_exist env cd e env1 h2
    | ok c =>
      cases srcE with
      | fdir => rfl
      | ffile content =>
        rcases h3 : osCreate (gs "sftp-create")
            (rfsGet w (cd.hostname, cd.port)) dest content with ⟨r3, σr1⟩
        try simp only [h3]
        cases r3 with
        | error e =>
          have h := osCreate_ne_exist (gs "sftp-create")
            (rfsGet w (cd.hostname, cd.port)) dest content
          rw [h3] at h
          exact h
        | ok u =>
          split
          all_goals first
            | (split <;> rfl)
            | (rename_i heq; exact absurd heq (by simp))

/-- The tail of `pathlocalsftp.Move` never fails with `fs.ErrExist`. -/
theorem localsftpMoveRest_ne_exist (σl : Fs) (w1 : RFs) (env1 : SftpEnv)
    (src dest : GoStr) (cd : ConnectionDetails) (srcE : FsEntry) :
    isExistErr (localsftpMoveRest σl w1 env1 src dest cd srcE).1 = false := by
  unfold localsftpMoveRest
  repeat' split
  all_goals try rfl
  rename_i σr1 hmk x2 e w3 env2 heq
  have h := localsftpCopy_ne_exist σl (rfsSet w1 (cd.hostname, cd.port) σr1)
    env1 src dest cd
  rw [heq] at h
  exact h

/-- `pathlocalsftp.Move` never fails with `fs.ErrExist` (its
destination check is a plain `fmt.Errorf`). -/
theorem localsftpMove_ne_exist (σl : Fs) (w : RFs) (env : SftpEnv)
    (src dest : GoStr) (cd : ConnectionDetails) (ow : Bool) :
    isExistErr (localsftpMove σl w env src dest cd ow).1 = false := by
  unfold localsftpMove
  cases h1 : fsStat σl src with
  | none => rfl
  | some srcE =>
    simp only [h1]
    rcases h2 : getClientE env cd with ⟨r2, env1⟩
    try simp only [h2]
    cases r2 with
    | error e => exact getClientE_ne_exist env cd e env1 h2
    | ok c =>
      cases hd : fsStat (rfsGet w (cd.hostname, cd.port)) dest with
      | some dE =>
        simp only [hd]
        split
        · rfl
        · split
          · rfl
          · exact localsftpMoveRest_ne_exist σl _ env1 src dest cd srcE
      | none =>
        simp only [hd]
        exact localsftpMoveRest_ne_exist σl w env1 src dest cd srcE

/-- `pathsftplocal.Copy` never fails with `fs.ErrExist`. -/
theorem sftplocalCopy_ne_exist (σl : Fs) (w : RFs) (env : SftpEnv)
    (src dest : GoStr) (cd : ConnectionDetails) :
    isExistErr (sftplocalCopy σl w env src dest cd).1 = false := by
  unfold sftplocalCopy
  rcases h2 : getClientE env cd with ⟨r2, env1⟩
  try simp only [h2]
  cases r2 with
  | error e => exact getClientE_ne_exist env cd e env1 h2
  | ok c =>
    cases hs : fsStat (rfsGet w (cd.hostname, cd.port)) src with
    | none => simp only [hs]; rfl
    | some srcE =>
      simp only [hs]
      cases srcE with
      | fdir => rfl
      | ffile content =>
        rcases h3 : osCreate (gs "create") σl dest content with ⟨r3, σl1⟩
        try simp only [h3]
        cases r3 with
        | error e =>
          have h := osCreate_ne_exist (gs "create") σl dest content
          rw [h3] at h
          exact h
        | ok u =>
          split
          all_goals first
            | (split <;> rfl)
            | (rename_i heq; exact absurd heq (by simp))

/-- `pathsftplocal.Move` never fails with `fs.ErrExist` (its
destination check is a plain `fmt.Errorf`). -/
theorem sftplocalMove_ne_exist (σl : Fs) (w : RFs) (env : SftpEnv)
    (src dest : GoStr) (cd : ConnectionDetails) (ow : Bool) :
    isExistErr (sftplocalMove σl w env src dest cd ow).1 = false := by
  unfold sftplocalMove
  rcases h2 : getClientE env cd with ⟨r2, env1⟩
  try simp only [h2]
  cases r2 with
  | error e => exact getClientE_ne_exist env cd e env1 h2
  | ok c =>
    cases hs : fsStat (rfsGet w (cd.hostname, cd.port)) src with
    | none => simp only [hs]; rfl
    | some srcE =>
      simp only [hs]
      split
      · rfl
      · cases hmk : osMkdirAll ((goDir dest).length + 1) σl (goDir dest) with
        | error e2 => simp only [hmk]; rfl
        | ok σl1 =>
          simp only [hmk]
          rcases hcp : sftplocalCopy σl1 w env1 src dest cd with ⟨r4, σl2, env2⟩
          try simp only [hcp]
          cases r4 with
          | error e4 =>
            have h := sftplocalCopy_ne_exist σl1 w env1 src dest cd
            rw [hcp] at h
            exact h
          | ok u =>
            repeat' split
            all_goals try rfl
            all_goals (rename_i heq; exact absurd heq (by simp))

/-- The rename tail of `pathsftpsftp.Move` never fails with
`fs.ErrExist`. -/
theorem sftpsftpRenameRest_ne_exist (σl : Fs) (w : RFs) (env1 : SftpEnv)
    (src dest : GoStr) (keyS : GoStr × Int) (σ2 : Fs) (renameOk : Bool) :
    isExistErr (sftpsftpRenameRest σl w env1 src dest keyS σ2 renameOk).1 = false := by
  unfold sftpsftpRenameRest
  repeat' split
  all_goals rfl

/-- `pathsftpsftp.Copy`, as reachable from `Move`, never fails with
`fs.ErrExist`. -/
theorem sftpsftpCopyFromMove_ne_exist (w : RFs) (env : SftpEnv)
    (src dest : GoStr) (cdSrc cdDest : ConnectionDetails) :
    isExistErr (sftpsftpCopyFromMove w env src dest cdSrc cdDest).1 = false := by
  unfold sftpsftpCopyFromMove
  rcases h2 : getClientE env cdSrc with ⟨r2, env1⟩
  try simp only [h2]
  cases r2 with
  | error e => exact getClientE_ne_exist env cdSrc e env1 h2
  | ok c =>
    cases hs : fsStat (rfsGet w (cdSrc.hostname, cdSrc.port)) src with
    | none => simp only [hs]; rfl
    | some srcE =>
      simp only [hs]
      cases srcE with
      | fdir => rfl
      | ffile content =>
        rcases h3 : getClientE env1 cdDest with ⟨r3, env2⟩
        try simp only [h3]
        cases r3 with
        | error e => exact getClientE_ne_exist env1 cdDest e env2 h3
        | ok c2 =>
          rcases h4 : osCreate (gs "sftp-create")
              (rfsGet w (cdDest.hostname, cdDest.port)) dest content with ⟨r4, σd1⟩
          try simp only [h4]
          cases r4 with
          | error e =>
            have h := osCreate_ne_exist (gs "sftp-create")
              (rfsGet w (cdDest.hostname, cdDest.port)) dest content
            rw [h4] at h
            exact h
          | ok u =>
            split
            all_goals first
              | (split <;> rfl)
              | (rename_i heq; exact absurd heq (by simp))

/-- `pathsftpsftp.Move` never fails with `fs.ErrExist` (its same-server
destination check is a plain `fmt.Errorf`). -/
theorem sftpsftpMove_ne_exist (σl : Fs) (w : RFs) (env : SftpEnv)
    (src dest : GoStr) (cdSrc cdDest : ConnectionDetails) (ow renameOk : Bool) :
    isExistErr (sftpsftpMove σl w env src dest cdSrc cdDest ow renameOk).1 = false := by
  unfold sftpsftpMove
  rcases h2 : getClientE env cdSrc with ⟨r2, env1⟩
  try simp only [h2]
  cases r2 with
  | error e => exact getClientE_ne_exist env cdSrc e env1 h2
  | ok c =>
    cases hs : fsStat (rfsGet w (cdSrc.hostname, cdSrc.port)) src with
    | none => simp only [hs]; rfl
    | some srcE =>
      simp only [hs]
      split
      · cases hmk : osMkdirAll ((goDir dest).length + 1)
            (rfsGet w (cdSrc.hostname, cdSrc.port)) (goDir dest) with
        | error e2 => simp only [hmk]; rfl
        | ok σ1 =>
          simp only [hmk]
          cases hd : fsStat σ1 dest with
          | none =>
            simp only [hd]
            exact sftpsftpRenameRest_ne_exist σl w env1 src dest
              (cdSrc.hostname, cdSrc.port) σ1 renameOk
          | some dE =>
            simp only [hd]
            split
            · rfl
            · split
              · rfl
              · exact sftpsftpRenameRest_ne_exist σl w env1 src dest
                  (cdSrc.hostname, cdSrc.port) (fsErase σ1 dest) renameOk
      · rcases hcp : sftpsftpCopyFromMove w env1 src dest cdSrc cdDest
            with ⟨r4, w2, env2⟩
        try simp only [hcp]
        cases r4 with
        | error e4 =>
          have h := sftpsftpCopyFromMove_ne_exist w env1 src dest cdSrc cdDest
          rw [hcp] at h
          exact h
        | ok u =>
          repeat' split
          all_goals try rfl
          all_goals (rename_i heq; exact absurd heq (by simp))

/-- The dispatch switch of `MoveTo` never fails with `fs.ErrExist`:
none of the four per-pair `Move` functions, nor the
`ConnectionDetails()` conversions, produce one. -/
theorem goMoveToArm_ne_exist (σl : Fs) (w : RFs) (env : SftpEnv)
    (rOk rTmpOk : Bool) (p d : GoPath) (ow : Bool) :
    isExistErr (goMoveToArm σl w env rOk rTmpOk p d ow).1 = false := by
  unfold goMoveToArm
  split
  · cases hc : goConnectionDetails p with
    | error e => simp only [hc]; exact goConnectionDetails_ne_exist p e hc
    | ok cdS =>
      simp only [hc]
      cases hc2 : goConnectionDetails d with
      | error e => simp only [hc2]; exact goConnectionDetails_ne_exist d e hc2
      | ok cdD =>
        simp only [hc2]
        exact sftpsftpMove_ne_exist σl w env p.path d.path cdS cdD ow rOk
  · split
    · cases hc : goConnectionDetails p with
      | error e => simp only [hc]; exact goConnectionDetails_ne_exist p e hc
      | ok cdS =>
        simp only [hc]
        exact sftplocalMove_ne_exist σl w env p.path d.path cdS ow
    · split
      · cases hc : goConnectionDetails d with
        | error e => simp only [hc]; exact goConnectionDetails_ne_exist d e hc
        | ok cdD =>
          simp only [hc]
          exact localsftpMove_ne_exist σl w env p.path d.path cdD ow
      · rcases hll : llMove σl rOk rTmpOk p.path d.path ow with ⟨r, σl1⟩
        try simp only [hll]
        cases r with
        | error e =>
          have h := llMove_ne_exist σl rOk rTmpOk p.path d.path ow
          rw [hll] at h
          exact h
        | ok u => rfl

/-- A successful threaded `Stat` of a non-URL path means the entry is
present in the world (no reachability assumptions needed). -/
theorem goStatE_ok_exists (σl : Fs) (w : RFs) (head : Option HttpResp)
    (env : SftpEnv) (q : GoPath) (i : GoFileInfo) (env1 : SftpEnv)
    (hqu : q.isUrl = false) (h : goStatE σl w head env q = (.ok i, env1)) :
    (worldStat σl w q).isSome = true := by
  unfold goStatE at h
  by_cases hv : goValidate q = true
  · simp only [hv, hqu, Bool.not_true, Bool.false_eq_true, if_false] at h
    cases hqs : q.isSftp with
    | false =>
      simp only [hqs, Bool.false_eq_true, if_false] at h
      have h1 : localStat σl q.path = .ok i := congrArg Prod.fst h
      unfold worldStat
      simp only [hqs, Bool.false_eq_true, if_false]
      unfold localStat at h1
      cases hst : fsStat σl q.path with
      | none => rw [hst] at h1; exact absurd h1 (by simp)
      | some e => simp
    | true =>
      simp only [hqs, if_true] at h
      cases hc : goConnectionDetails q with
      | error e =>
        simp only [hc] at h
        exact absurd (congrArg Prod.fst h) (by simp)
      | ok cd =>
        simp only [hc] at h
        unfold goConnectionDetails at hc
        rw [if_neg (by simp [hqs])] at hc
        cases hpt : goAtoi q.port with
        | none => rw [hpt] at hc; exact absurd hc (by simp)
        | some pt =>
          rw [hpt] at hc
          have hcd : cd = { hostname := q.host, port := pt,
                            username := q.username, password := q.password } :=
            (Except.ok.inj hc).symm
          subst hcd
          rcases hg : getClientE env { hostname := q.host, port := pt,
                                       username := q.username,
                                       password := q.password } with ⟨rg, env2⟩
          simp only [hg] at h
          cases rg with
          | error e => exact absurd (congrArg Prod.fst h) (by simp)
          | ok c =>
            cases hst : fsStat (rfsGet w (q.host, pt)) q.path with
            | none =>
              simp only [hst] at h
              exact absurd (congrArg Prod.fst h) (by simp)
            | some e =>
              unfold worldStat
              simp only [hqs, if_true, hpt, hst, Option.isSome]
  · have hvf : goValidate q = false := by
      revert hv; cases goValidate q <;> simp
    simp [hvf] at h

/-- The threaded `Stat` of a valid non-URL path, when the pool has room
and (for an SFTP path) holds a live session for the path's endpoint:
success is exactly presence in the world, and the pool keeps its size,
its capacity and all its live sessions. -/
theorem goStatE_ready (σl : Fs) (w : RFs) (head : Option HttpResp)
    (env : SftpEnv) (q : GoPath)
    (hqu : q.isUrl = false) (hv : goValidate q = true)
    (hready : q.isSftp = true →
      liveFor env.m (pathKey q) ∧ ∃ pt, goAtoi q.port = some pt)
    (hcap : env.m.clients.length < env.m.maxConnections) :
    ((goStatE σl w head env q).1.toOption.isSome = (worldStat σl w q).isSome) ∧
    (goStatE σl w head env q).2.m.clients.length = env.m.clients.length ∧
    (goStatE σl w head env q).2.m.maxConnections = env.m.maxConnections ∧
    (∀ k, liveFor env.m k → liveFor (goStatE σl w head env q).2.m k) := by
  unfold goStatE
  cases hqs : q.isSftp with
  | false =>
    simp only [hv, hqu, hqs, Bool.not_true, Bool.false_eq_true, if_false]
    refine ⟨?_, by trivial, by trivial, fun k hk => hk⟩
    unfold worldStat localStat
    simp only [hqs, Bool.false_eq_true, if_false]
    cases hst : fsStat σl q.path <;> simp [Except.toOption]
  | true =>
    obtain ⟨hlive, pt, hpt⟩ := hready hqs
    have hc : goConnectionDetails q = .ok { hostname := q.host, port := pt,
                                            username := q.username,
                                            password := q.password } := by
      unfold goConnectionDetails
      rw [if_neg (by simp [hqs])]
      rw [hpt]
    have hkey : pathKey q = cdString (applyDefaults { hostname := q.host,
                                                      port := pt,
                                                      username := q.username,
                                                      password := q.password }) := by
      unfold pathKey
      rw [hpt]
      rfl
    rw [hkey] at hlive
    obtain ⟨kv, hfind, halive⟩ := hlive
    have hgc := getClientE_live env { hostname := q.host, port := pt,
                                      username := q.username,
                                      password := q.password } kv hfind halive hcap
    simp only [hv, hqu, hqs, Bool.not_true, Bool.false_eq_true, if_false,
      if_true, hc, hgc]
    refine ⟨?_, ?_, ?_, ?_⟩
    · unfold worldStat
      simp only [hqs, if_true, hpt]
      cases hst : fsStat (rfsGet w (q.host, pt)) q.path <;>
        simp [hst, Except.toOption]
    · cases hst : fsStat (rfsGet w (q.host, pt)) q.path <;>
        simp [hst, List.length_map]
    · cases hst : fsStat (rfsGet w (q.host, pt)) q.path <;> simp [hst]
    · intro k hk
      cases hst : fsStat (rfsGet w (q.host, pt)) q.path <;>
        simp only [hst] <;>
        exact liveFor_mapUpd env.m
          (cdString (applyDefaults { hostname := q.host, port := pt,
                                     username := q.username,
                                     password := q.password })) k env.now hk

/-- A verified prefix splits the string. -/
theorem startsWith_append (s pre : GoStr) (h : strStartsWith s pre = true) :
    s = pre ++ s.drop pre.length := by
  unfold strStartsWith at h
  obtain ⟨t, ht⟩ := List.isPrefixOf_iff_prefix.mp h
  rw [← ht, List.drop_left]

/-- `takeWhile` plus the rest of the list. -/
theorem takeWhile_append_drop (P : Char → Bool) (l : GoStr) :
    l.takeWhile P ++ l.drop (l.takeWhile P).length = l := by
  obtain ⟨t, ht⟩ := (List.takeWhile_prefix P : l.takeWhile P <+: l)
  calc l.takeWhile P ++ l.drop (l.takeWhile P).length
      = l.takeWhile P ++ ((l.takeWhile P ++ t).drop (l.takeWhile P).length) := by
        rw [ht]
    _ = l.takeWhile P ++ t := by rw [List.drop_left]
    _ = l := ht

/-- `urlSplit` is a decomposition: the input is the reassembled URL. -/
theorem urlSplit_recon (s sch host pa : GoStr)
    (h : urlSplit s = some (sch, host, pa)) : s = urlString sch host pa := by
  unfold urlSplit at h
  by_cases h7 : strStartsWith s (gs "http://") = true
  · rw [if_pos h7] at h
    simp only [Option.some.injEq, Prod.mk.injEq] at h
    obtain ⟨h1, h2, h3⟩ := h
    have hs := startsWith_append s (gs "http://") h7
    have hrest := takeWhile_append_drop (· ≠ '/') (s.drop 7)
    unfold urlString
    rw [← h1, ← h2, ← h3]
    conv_lhs => rw [hs]
    show gs "http" ++ gs "://" ++ (s.drop 7) = _
    rw [List.append_assoc, List.append_assoc, hrest]
    exact (List.append_assoc _ _ _).symm
  · rw [if_neg h7] at h
    by_cases h8 : strStartsWith s (gs "https://") = true
    · rw [if_pos h8] at h
      simp only [Option.some.injEq, Prod.mk.injEq] at h
      obtain ⟨h1, h2, h3⟩ := h
      have hs := startsWith_append s (gs "https://") h8
      have hrest := takeWhile_append_drop (· ≠ '/') (s.drop 8)
      unfold urlString
      rw [← h1, ← h2, ← h3]
      conv_lhs => rw [hs]
      show gs "https" ++ gs "://" ++ (s.drop 8) = _
      rw [List.append_assoc, List.append_assoc, hrest]
      exact (List.append_assoc _ _ _).symm
    · rw [if_neg h8] at h
      cases h

/-- Trimming a trailing slash from a well-formed URL only shortens the
path component: the scheme and host survive verbatim. -/
theorem strTrimEnd_url (sch host pa : GoStr) (hhost : host ≠ [])
    (hchars : host.all urlHostChar = true) :
    ∃ pa2, strTrimEnd (urlString sch host pa) (gs "/") = urlString sch host pa2 := by
  unfold strTrimEnd
  by_cases hE : strEndsWith (urlString sch host pa) (gs "/") = true
  · rw [if_pos hE]
    unfold strEndsWith at hE
    obtain ⟨t, ht⟩ := List.isSuffixOf_iff_suffix.mp hE
    have hlast : (urlString sch host pa).getLast? = some '/' := by
      rw [← ht]
      exact List.getLast?_concat t
    have hpa : pa ≠ [] := by
      intro hnil
      subst hnil
      have h2 : (urlString sch host []).getLast? = host.getLast? := by
        unfold urlString
        rw [List.append_nil, List.getLast?_append_of_ne_nil _ hhost]
      rw [h2] at hlast
      have h3 : '/' ∈ host := List.mem_of_mem_getLast? (by rw [hlast]; rfl)
      have h4 := List.all_eq_true.mp hchars _ h3
      simp [urlHostChar] at h4
    have hpal : pa.getLast? = some '/' := by
      have h2 : (urlString sch host pa).getLast? = pa.getLast? := by
        unfold urlString
        rw [List.getLast?_append_of_ne_nil _ hpa]
      rw [← h2, hlast]
    have hsplit : pa = pa.dropLast ++ [('/' : Char)] :=
      (List.dropLast_append_getLast? _ hpal).symm
    refine ⟨pa.dropLast, ?_⟩
    have hshape : urlString sch host pa
        = (urlString sch host pa.dropLast) ++ [('/' : Char)] := by
      unfold urlString
      conv_lhs => rw [hsplit]
      simp [List.append_assoc]
    rw [hshape]
    have hlen : (urlString sch host pa.dropLast ++ [('/' : Char)]).length - (gs "/").length
        = (urlString sch host pa.dropLast).length := by
      have h1 : (gs "/").length = 1 := rfl
      simp [List.length_append, h1]
    rw [hlen, List.take_left]
  · rw [if_neg hE]
    exact ⟨pa, rfl⟩

/-! ## Claim theorems -/

/-- C1 (counterexample): with the destination present on its SFTP
server but the connection pool at capacity, `MoveTo(dest, false)` fails
with the pool-exhaustion error of the dispatch arm's `GetClient` — not
with `fs.ErrExist` — so the unqualified "fails with AlreadyExists iff
the destination exists" is false on the code. -/
theorem moveTo_pool_exhausted_masks_existing_dest :
    (worldStat exFs exW exDstSftp).isSome = true ∧
    exEnvFull.m.clients.length = exEnvFull.m.maxConnections ∧
    (goMoveTo exFs exW none exEnvFull true true exSrc exDstSftp false).1 =
      .error ⟨gs "sftp-move-get-client", gs "/r", .errPoolExhausted⟩ ∧
    isExistErr
      (goMoveTo exFs exW none exEnvFull true true exSrc exDstSftp false).1 =
      false := by
  exact ⟨rfl, rfl, rfl, rfl⟩

/-- C1 (amended): `MoveTo(dest, overwrite=false)` across all four
dispatch arms of `pathlib.go:872-900`. For a valid existing non-URL
source and a valid non-URL destination, if every SFTP endpoint the call
touches is reachable — the pool is below `MaxConnections` and holds a
live session for the endpoint — then the call fails with `fs.ErrExist`
exactly when the destination exists, and on that failure the error is
the facade's `pathmodels.ErrExist` and the local filesystem and every
remote filesystem are byte-for-byte unchanged. The "only if" direction
holds without any reachability proviso: no arm can produce an
`fs.ErrExist`-kind error. -/
theorem moveTo_allArms_exclusive_overwrite
    (σl : Fs) (w : RFs) (head : Option HttpResp) (env : SftpEnv)
    (rOk rTmpOk : Bool) (p d : GoPath)
    (hpu : p.isUrl = false) (hdu : d.isUrl = false)
    (hvp : goValidate p = true) (hvd : goValidate d = true)
    (hsrc : (worldStat σl w p).isSome = true)
    (hcap : env.m.clients.length < env.m.maxConnections)
    (hpr : p.isSftp = true →
      liveFor env.m (pathKey p) ∧ ∃ pt, goAtoi p.port = some pt)
    (hdr : d.isSftp = true →
      liveFor env.m (pathKey d) ∧ ∃ pt, goAtoi d.port = some pt) :
    (isExistErr (goMoveTo σl w head env rOk rTmpOk p d false).1 = true ↔
      (worldStat σl w d).isSome = true) ∧
    ((worldStat σl w d).isSome = true →
      (goMoveTo σl w head env rOk rTmpOk p d false).1 =
        .error ⟨gs "move", d.path, .errExist⟩ ∧
      (goMoveTo σl w head env rOk rTmpOk p d false).2.1 = σl ∧
      (goMoveTo σl w head env rOk rTmpOk p d false).2.2.1 = w) := by
  obtain ⟨hok1, hlen1, hmax1, hlive1⟩ :=
    goStatE_ready σl w head env p hpu hvp hpr hcap
  rcases hg1 : goStatE σl w head env p with ⟨r1, env1⟩
  rw [hg1] at hok1 hlen1 hmax1 hlive1
  cases r1 with
  | error e1 =>
    rw [hsrc] at hok1
    simp [Except.toOption] at hok1
  | ok i1 =>
    have hcap1 : env1.m.clients.length < env1.m.maxConnections := by
      have ha : env1.m.clients.length = env.m.clients.length := hlen1
      have hb : env1.m.maxConnections = env.m.maxConnections := hmax1
      rw [ha, hb]
      exact hcap
    have hlive1' : ∀ k, liveFor env.m k → liveFor env1.m k := hlive1
    have hdr1 : d.isSftp = true →
        liveFor env1.m (pathKey d) ∧ ∃ pt, goAtoi d.port = some pt :=
      fun hh => ⟨hlive1' _ ((hdr hh).1), (hdr hh).2⟩
    obtain ⟨hok2, hlen2, hmax2, hlive2⟩ :=
      goStatE_ready σl w head env1 d hdu hvd hdr1 hcap1
    rcases hg2 : goStatE σl w head env1 d with ⟨r2, env2⟩
    rw [hg2] at hok2 hlen2 hmax2 hlive2
    have hcomp : goMoveTo σl w head env rOk rTmpOk p d false =
        (match r2 with
         | .ok _ => (.error ⟨gs "move", d.path, .errExist⟩, σl, w, env2)
         | .error _ => goMoveToArm σl w env2 rOk rTmpOk p d false) := by
      unfold goMoveTo
      simp only [hpu, hvp, Bool.not_true, Bool.false_eq_true, if_false, hg1, hg2]
      cases r2 with
      | ok i2 => simp
      | error e2 => simp
    cases r2 with
    | ok i2 =>
      have hds : (worldStat σl w d).isSome = true := by
        rw [← hok2]; rfl
      rw [hcomp]
      exact ⟨⟨fun _ => hds, fun _ => rfl⟩, fun _ => ⟨rfl, rfl, rfl⟩⟩
    | error e2 =>
      have hds : (worldStat σl w d).isSome = false := by
        rw [← hok2]; rfl
      rw [hcomp]
      have hne := goMoveToArm_ne_exist σl w env2 rOk rTmpOk p d false
      constructor
      · constructor
        · intro hex
          have hx : isExistErr
              (goMoveToArm σl w env2 rOk rTmpOk p d false).1 = true := hex
          rw [hne] at hx
          exact absurd hx (by simp)
        · intro hd2
          rw [hds] at hd2
          exact absurd hd2 (by simp)
      · intro hd2
        rw [hds] at hd2
        exact absurd hd2 (by simp)

/-- C1 (witness): moving the local file `/a` onto the SFTP destination
`sftp://u@h:22/r`, which exists remotely, with a live pooled session
for `u@h:22` and pool room: the call fails with the facade's
`pathmodels.ErrExist` and both worlds are unchanged. -/
theorem moveTo_allArms_exclusive_overwrite_witness :
    (worldStat exFs exW exDstSftp).isSome = true ∧
    (goMoveTo exFs exW none exEnvRoom true true exSrc exDstSftp false).1 =
      .error ⟨gs "move", gs "/r", .errExist⟩ ∧
    (goMoveTo exFs exW none exEnvRoom true true exSrc exDstSftp false).2.1 =
      exFs ∧
    (goMoveTo exFs exW none exEnvRoom true true exSrc exDstSftp false).2.2.1 =
      exW := by
  have h := moveTo_allArms_exclusive_overwrite exFs exW none exEnvRoom
    true true exSrc exDstSftp rfl rfl (by decide) (by decide) rfl (by decide)
    (fun hh => absurd hh (by decide))
    (fun _ => ⟨⟨(exKey, ⟨7, true, 0⟩), by decide, rfl⟩, ⟨22, by decide⟩⟩)
  exact ⟨rfl, (h.2 rfl).1, (h.2 rfl).2.1, (h.2 rfl).2.2⟩

/-- C6 (counterexample): for a 100-byte source the computed transfer
buffer is 100 bytes, strictly below the 4 KiB the claim asserts as a
universal lower bound. -/
theorem bufferSize_small_input_below_4KiB :
    goGetOptimalBufferSize 100 4 = 100 ∧ ¬(4096 ≤ goGetOptimalBufferSize 100 4) := by
  constructor <;> decide

/-- C6 (amended): the computed buffer size is the file size itself when
that is below 4 KiB (with no lower bound there), and otherwise
`4 KiB × CPU-count` capped at 1 MiB — which then does lie between 4 KiB
and 1 MiB inclusive; a positive `options.BufferSize` overrides the
computed value. -/
theorem bufferSize_spec (n : Int) (cpu : Nat) (o : Int) :
    (n < 4096 → goGetOptimalBufferSize n cpu = n) ∧
    (4096 ≤ n → goGetOptimalBufferSize n cpu = min (4096 * (cpu : Int)) 1048576) ∧
    (4096 ≤ n → 1 ≤ cpu →
      4096 ≤ goGetOptimalBufferSize n cpu ∧ goGetOptimalBufferSize n cpu ≤ 1048576) ∧
    (0 < o → effectiveBufferSize o n cpu = o) := by
  unfold effectiveBufferSize goGetOptimalBufferSize
  refine ⟨fun h => by simp [h], fun h => ?_, fun h hcpu => ?_, fun h => ?_⟩
  · have : ¬(n < 4 * 1024) := by omega
    simp only [this, if_false]
    split <;> omega
  · have : ¬(n < 4 * 1024) := by omega
    simp only [this, if_false]
    have hc : (4096 : Int) ≤ 4096 * (cpu : Int) := by
      have : (1 : Int) ≤ (cpu : Int) := by exact_mod_cast hcpu
      nlinarith
    constructor <;> split <;> omega
  · simp [h]

/-- C6 (witness): a 5000-byte source on 2 CPUs gets an 8 KiB buffer,
within the 4 KiB…1 MiB bounds, and an explicit 9000-byte option wins. -/
theorem bufferSize_spec_witness :
    goGetOptimalBufferSize 5000 2 = min (4096 * ((2 : Nat) : Int)) 1048576 ∧
    4096 ≤ goGetOptimalBufferSize 5000 2 ∧
    effectiveBufferSize 9000 5000 2 = 9000 :=
  ⟨(bufferSize_spec 5000 2 9000).2.1 (by norm_num),
   ((bufferSize_spec 5000 2 9000).2.2.1 (by norm_num) (by norm_num)).1,
   (bufferSize_spec 5000 2 9000).2.2.2 (by norm_num)⟩

/-- C3 (counterexample): a pool at capacity (`MaxConnections = 1`) whose
single entry is a live session for exactly the requested key still makes
`GetClient` fail with pool exhaustion — the capacity check runs before
the existing-session lookup. -/
theorem getClient_full_pool_rejects_live_match :
    exMgrFull.clients.length = exMgrFull.maxConnections ∧
    (exMgrFull.clients.find? (fun e => e.1 == exKey)).map (fun e => e.2.alive)
      = some true ∧
    (getClientM exMgrFull 1 [some 9] exCd).1 = Except.error ErrKind.errPoolExhausted := by
  refine ⟨rfl, rfl, rfl⟩

/-- C3 (amended): `GetClient` fails with pool exhaustion exactly when
the pool map already holds at least `MaxConnections` entries (live or
dead), regardless of whether a live session for the key exists. -/
theorem getClient_poolExhausted_iff (m : Manager) (now : Nat)
    (dial : List (Option Nat)) (cd : ConnectionDetails) :
    (getClientM m now dial cd).1 = Except.error ErrKind.errPoolExhausted ↔
      m.maxConnections ≤ m.clients.length := by
  unfold getClientM
  by_cases h : m.clients.length ≥ m.maxConnections
  · rw [if_pos h]
    exact ⟨fun _ => by omega, fun _ => rfl⟩
  · rw [if_neg h]
    constructor
    · intro hres
      exfalso
      rcases hex : getExistingClient m now (cdString (applyDefaults cd)) with ⟨o, m1⟩
      cases o with
      | some c => rw [hex] at hres; simp at hres
      | none =>
        rw [hex] at hres
        exact retryCreate_ne_poolExhausted _ _ _ _ _ hres
    · intro hge; exact absurd hge (by omega)

/-- C10 (counterexample): the pool key ignores the password — `exCd`
and `exCd2` share the key `u@h:22` — yet when the pool already holds
`MaxConnections` entries, `GetClient` with the password-differing
details fails with pool exhaustion instead of returning the live
matching session: the capacity check at `manager.go:126` runs before
the key lookup, so the claimed unconditional reuse does not hold. -/
theorem getClient_capacity_overrides_password_reuse :
    cdString (applyDefaults exCd) = cdString (applyDefaults exCd2) ∧
    poolAlive exMgrFull exKey = some true ∧
    exMgrFull.clients.length = exMgrFull.maxConnections ∧
    (getClientM exMgrFull 1 [some 9] exCd2).1 = .error .errPoolExhausted := by
  exact ⟨rfl, rfl, rfl, rfl⟩

/-- C10 (amended): two `ConnectionDetails` that agree on username,
hostname and port (the password may differ) share the pool key
`user@host:port`, and — whenever the pool is below `MaxConnections` —
a `GetClient` call with the second details returns the live pooled
session created under the first, without any new authentication. At
capacity the call fails instead (see the counterexample). -/
theorem getClient_key_ignores_password
    (cd1 cd2 : ConnectionDetails) (m : Manager) (now : Nat)
    (dial : List (Option Nat)) (kv : GoStr × ClientInfo)
    (hu : cd1.username = cd2.username) (hh : cd1.hostname = cd2.hostname)
    (hp : cd1.port = cd2.port)
    (hfind : m.clients.find? (fun e => e.1 == cdString (applyDefaults cd1)) = some kv)
    (halive : kv.2.alive = true) (hlen : m.clients.length < m.maxConnections) :
    cdString (applyDefaults cd1) = cdString (applyDefaults cd2) ∧
    (getClientM m now dial cd2).1 = .ok kv.2.client := by
  have hkey : cdString (applyDefaults cd1) = cdString (applyDefaults cd2) := by
    simp [cdString, applyDefaults, hu, hh, hp]
  refine ⟨hkey, ?_⟩
  rw [getClientM_existing m now dial cd2 kv (hkey ▸ hfind) halive hlen]

/-- C10 (witness): with a live session pooled for `u@h:22`, details that
differ only in the password get that same session back. -/
theorem getClient_key_ignores_password_witness :
    cdString (applyDefaults exCd) = cdString (applyDefaults exCd2) ∧
    (getClientM exMgrRoom 1 [] exCd2).1 = .ok 7 :=
  getClient_key_ignores_password exCd exCd2 exMgrRoom 1 []
    (exKey, { client := 7, alive := true, lastUsed := 0 })
    rfl rfl rfl rfl rfl (by decide)

/-- C4 (counterexample): `pathsftp.Remove` completes successfully while
borrowing the pooled session, and afterwards that session is closed —
the `defer client.Close()` closes the manager-owned client. -/
theorem sftpRemove_closes_pooled_session :
    (sftpRemove exMgrRoom 1 [] [] (gs "/x") true false exCd).1 = .ok () ∧
    poolAlive exMgrRoom exKey = some true ∧
    poolAlive (sftpRemove exMgrRoom 1 [] [] (gs "/x") true false exCd).2.2 exKey
      = some false := by
  refine ⟨rfl, rfl, rfl⟩

/-- C4 (amended): the SFTP primitives are split — `Remove` and `MakeDir`
(like `RemoveDir`, `List`, `Rename` and `Glob` in the source) close the
borrowed pooled session via `defer client.Close()` before returning,
while `WriteBytes` (like `WriteText`, `ReadText`, `ReadBytes` and
`Stat`) leaves it open; only the manager's cleanup or `Close()` would
otherwise close sessions. -/
theorem sftpOps_close_split
    (m : Manager) (now : Nat) (dial : List (Option Nat)) (σr : Fs)
    (cd : ConnectionDetails) (p fp data : GoStr)
    (missingOk parents existsOk : Bool) (kv : GoStr × ClientInfo)
    (hfind : m.clients.find? (fun e => e.1 == cdString (applyDefaults cd)) = some kv)
    (halive : kv.2.alive = true) (hlen : m.clients.length < m.maxConnections) :
    poolAlive (sftpRemove m now dial σr p missingOk false cd).2.2
        (cdString (applyDefaults cd)) = some false ∧
    poolAlive (sftpMakeDir m now dial σr p parents existsOk cd).2.2
        (cdString (applyDefaults cd)) = some false ∧
    poolAlive (sftpWriteBytes m now dial σr fp data cd).2.2
        (cdString (applyDefaults cd)) = some true := by
  have hget := getClientM_existing m now dial cd kv hfind halive hlen
  have hfind2 : ({ m with clients := m.clients.map (fun e =>
      if e.1 == cdString (applyDefaults cd) then
        (e.1, { e.2 with lastUsed := now }) else e) } : Manager).clients.find?
        (fun e => e.1 == cdString (applyDefaults cd))
      = some (kv.1, { kv.2 with lastUsed := now }) := by
    dsimp only
    rw [find?_mapUpd, hfind]
    rfl
  have hclose := poolAlive_mapUpd
    { m with clients := m.clients.map (fun e =>
        if e.1 == cdString (applyDefaults cd) then
          (e.1, { e.2 with lastUsed := now }) else e) }
    (cdString (applyDefaults cd)) (fun e => { e.2 with alive := false })
    (kv.1, { kv.2 with lastUsed := now }) hfind2
  refine ⟨?_, ?_, ?_⟩
  · unfold sftpRemove
    rw [hget]
    exact hclose
  · unfold sftpMakeDir
    rw [hget]
    exact hclose
  · unfold sftpWriteBytes
    rw [hget]
    have h2 : poolAlive { m with clients := m.clients.map (fun e =>
        if e.1 == cdString (applyDefaults cd) then
          (e.1, { e.2 with lastUsed := now }) else e) }
        (cdString (applyDefaults cd)) = some true := by
      simpa [halive] using poolAlive_mapUpd m (cdString (applyDefaults cd))
        (fun e => { e.2 with lastUsed := now }) kv hfind
    exact h2

/-- C2: when `WriteText` succeeds (it has validated
`decode(encode(content)) = content` and stored `encode(content)`), a
subsequent `ReadText` with the same encoding name decodes those stored
bytes back to exactly the original text; and a `ReadBytes` after a
successful `WriteBytes` returns exactly the written buffer. -/
theorem writeRead_roundTrip (reg : EncRegistry) (σ σ' σ2 σ2' : Fs)
    (pth content ename data : GoStr) :
    (localWriteText reg σ pth content ename = (.ok (), σ') →
      localReadText reg σ' pth ename = .ok content) ∧
    (localWriteBytes σ2 pth data = (.ok (), σ2') →
      localReadBytes σ2' pth = .ok data) := by
  constructor
  · intro hw
    unfold localWriteText at hw
    cases hre : resolveEnc reg ename with
    | none => simp only [hre] at hw; simp at hw
    | some enc =>
      simp only [hre] at hw
      cases hec : enc.encode content with
      | none => simp only [hec] at hw; simp at hw
      | some encoded =>
        simp only [hec] at hw
        cases hdc : enc.decode encoded with
        | none => simp only [hdc] at hw; simp at hw
        | some decoded =>
          simp only [hdc] at hw
          by_cases hne : decoded ≠ content
          · rw [if_pos hne] at hw; simp at hw
          · rw [if_neg hne] at hw
            push_neg at hne
            obtain ⟨hσ, hpth⟩ := osCreate_ok _ _ _ _ _ hw
            have hstat : fsStat σ' pth = some (.ffile encoded) := by
              rw [hσ, fsStat_fsInsert, if_neg hpth, if_pos rfl]
            unfold localReadText
            simp only [hre, hstat, hdc, hne]
  · intro hw
    unfold localWriteBytes at hw
    obtain ⟨hσ, hpth⟩ := osCreate_ok _ _ _ _ _ hw
    have hstat : fsStat σ2' pth = some (.ffile data) := by
      rw [hσ, fsStat_fsInsert, if_neg hpth, if_pos rfl]
    unfold localReadBytes
    simp only [hstat]

/-- C2 (witness): writing `hi` as text (UTF-8 passthrough registry) and
`abc` as bytes to `/f` of an empty disk reads back identically. -/
theorem writeRead_roundTrip_witness :
    localReadText exReg [(gs "/f", FsEntry.ffile (gs "hi"))] (gs "/f") (gs "utf-8")
      = .ok (gs "hi") ∧
    localReadBytes [(gs "/f", FsEntry.ffile (gs "abc"))] (gs "/f") = .ok (gs "abc") :=
  ⟨(writeRead_roundTrip exReg [] [(gs "/f", FsEntry.ffile (gs "hi"))] [] []
      (gs "/f") (gs "hi") (gs "utf-8") []).1 rfl,
   (writeRead_roundTrip exReg [] [] [] [(gs "/f", FsEntry.ffile (gs "abc"))]
      (gs "/f") (gs "hi") (gs "utf-8") (gs "abc")).2 rfl⟩

/-- C5 (counterexample): the relative input `foo` carries no
`sftp://`/`http://`/`https://` prefix, yet `New` does not make it
absolute against the working directory — validation rejects the
still-relative path and the factory returns nil. -/
theorem new_bare_relative_not_absolutized :
    strStartsWith (gs "foo") (gs "sftp://") = false ∧
    strStartsWith (gs "foo") (gs "http://") = false ∧
    strStartsWith (gs "foo") (gs "https://") = false ∧
    goNew (gs "/home/u") (gs "foo") = none := by
  refine ⟨rfl, rfl, rfl, by decide⟩

/-- C5 (amended): inputs without a recognized scheme prefix are treated
as local with every backslash replaced by a forward slash, but only
relative inputs beginning with `.` are made absolute against the
working directory; any other relative input fails validation and `New`
returns nil, so every constructed local path is absolute. -/
theorem new_local_spec (cwd raw : GoStr) (q : GoPath)
    (h1 : strStartsWith (goReplaceBackslash raw) (gs "sftp://") = false)
    (h2 : strStartsWith (goReplaceBackslash raw) (gs "http://") = false)
    (h3 : strStartsWith (goReplaceBackslash raw) (gs "https://") = false) :
    (goNew cwd raw = some q →
      q.isSftp = false ∧ q.isUrl = false ∧
      q.path = (if strStartsWith (goReplaceBackslash raw) (gs ".") then
          goAbs cwd (goReplaceBackslash raw) else goReplaceBackslash raw) ∧
      strStartsWith q.path (gs "/") = true) ∧
    (strStartsWith (goReplaceBackslash raw) (gs ".") = false →
      strStartsWith (goReplaceBackslash raw) (gs "/") = false →
      goNew cwd raw = none) := by
  unfold goNew
  by_cases hraw : raw = []
  · rw [if_pos hraw]
    constructor
    · intro h
      exact nomatch h
    · intro _ _
      rfl
  · rw [if_neg hraw]
    simp only [h1, h2, h3, Bool.false_eq_true, if_false, or_self]
    constructor
    · intro hq
      by_cases hval : goValidate { path := (if strStartsWith (goReplaceBackslash raw) (gs ".")
          then goAbs cwd (goReplaceBackslash raw) else goReplaceBackslash raw) } = true
      · rw [if_pos hval] at hq
        have hqq : q = { path := (if strStartsWith (goReplaceBackslash raw) (gs ".")
            then goAbs cwd (goReplaceBackslash raw) else goReplaceBackslash raw) } := by
          cases hq; rfl
        subst hqq
        refine ⟨rfl, rfl, rfl, ?_⟩
        have h5 := hval
        unfold goValidate at h5
        simp only [Bool.and_eq_true, Bool.or_eq_true] at h5
        rcases h5.1.1.1.2 with h | h
        · exact h
        · cases h
      · rw [if_neg hval] at hq; cases hq
    · intro hdot habs
      rw [hdot]
      simp only [Bool.false_eq_true, if_false]
      have hval : goValidate { path := goReplaceBackslash raw } = false := by
        unfold goValidate
        simp [habs]
      rw [hval]
      simp

/-- C5 (witness): `./a` with working directory `/home/u` is treated as
local and absolutized to `/home/u/a`. -/
theorem new_local_spec_witness :
    ({ path := gs "/home/u/a" } : GoPath).isSftp = false ∧
    ({ path := gs "/home/u/a" } : GoPath).isUrl = false ∧
    ({ path := gs "/home/u/a" } : GoPath).path
      = (if strStartsWith (goReplaceBackslash (gs "./a")) (gs ".") then
          goAbs (gs "/home/u") (goReplaceBackslash (gs "./a"))
        else goReplaceBackslash (gs "./a")) ∧
    strStartsWith ({ path := gs "/home/u/a" } : GoPath).path (gs "/") = true :=
  (new_local_spec (gs "/home/u") (gs "./a") { path := gs "/home/u/a" }
    (by decide) (by decide) (by decide)).1 (by decide)

/-- C7 (counterexample): on an SFTP path, a first `MakeDir(parents=false,
existsOk=true)` against a fresh manager with `MaxConnections = 1`
succeeds, and the immediate second call on the unchanged path fails —
the pool already holds one (closed) entry, so session acquisition
reports pool exhaustion before the filesystem is even consulted. -/
theorem makeDir_second_call_pool_exhausted :
    (sftpMakeDir exMgrOne 0 [some 3] [] (gs "/d") false true exCd).1 = .ok () ∧
    (sftpMakeDir (sftpMakeDir exMgrOne 0 [some 3] [] (gs "/d") false true exCd).2.2
        1 [some 4] (sftpMakeDir exMgrOne 0 [some 3] [] (gs "/d") false true exCd).2.1
        (gs "/d") false true exCd).1
      = .error ⟨gs "sftp-mkdir-get-client", gs "/d", .errPoolExhausted⟩ := by
  refine ⟨rfl, rfl⟩

/-- C7 (amended): `MakeDir(parents, existsOk=true)` is idempotent on the
filesystem for both backends — a second call on the unchanged path
returns no error and changes nothing — provided (for the SFTP backend)
the second call can still acquire a session from the pool; the local
backend needs no such proviso. -/
theorem makeDir_idempotent
    (σ : Fs) (p : GoStr) (parents : Bool) (σ' : Fs)
    (m : Manager) (now now2 : Nat) (dial dial2 : List (Option Nat)) (σr σr' : Fs)
    (cd : ConnectionDetails) (pr : GoStr) (parents2 : Bool) (m' : Manager) (c : Nat)
    (hloc : localMakeDir σ p parents true = (.ok (), σ'))
    (hsftp : sftpMakeDir m now dial σr pr parents2 true cd = (.ok (), σr', m'))
    (hget2 : (getClientM m' now2 dial2 cd).1 = .ok c) :
    localMakeDir σ' p parents true = (.ok (), σ') ∧
    (sftpMakeDir m' now2 dial2 σr' pr parents2 true cd).1 = .ok () ∧
    (sftpMakeDir m' now2 dial2 σr' pr parents2 true cd).2.1 = σr' := by
  have hdir := localMakeDir_ok_isDir σ p parents true σ' hloc
  have hloc2 : localMakeDir σ' p parents true = (.ok (), σ') := by
    unfold localMakeDir
    simp [hdir]
  refine ⟨hloc2, ?_⟩
  have hbody : sftpMakeDirBody σr (cleanPath pr) parents2 true = (.ok (), σr') := by
    unfold sftpMakeDir at hsftp
    rcases hg : getClientM m now dial cd with ⟨r0, m1⟩
    cases r0 with
    | error e0 => rw [hg] at hsftp; simp at hsftp
    | ok c0 =>
      rw [hg] at hsftp
      simp only [Prod.mk.injEq] at hsftp
      exact Prod.ext_iff.mpr ⟨hsftp.1, hsftp.2.1⟩
  have hbody2 := sftpMakeDirBody_idem _ _ _ _ hbody
  unfold sftpMakeDir
  rcases hg2 : getClientM m' now2 dial2 cd with ⟨r2, m2⟩
  rw [hg2] at hget2
  simp only at hget2
  subst hget2
  simp [hbody2]

/-- C7 (witness): concrete runs — a local `MakeDir` repeated on `/d`,
and an SFTP `MakeDir` repeated with a pool that still has room (the
dead entry left by the first call is evicted and a new dial succeeds). -/
theorem makeDir_idempotent_witness :
    localMakeDir [(gs "/d", FsEntry.fdir)] (gs "/d") false true
      = (.ok (), [(gs "/d", FsEntry.fdir)]) ∧
    (sftpMakeDir (sftpMakeDir exMgrRoom 0 [] [] (gs "/d") false true exCd).2.2
        1 [some 8] [(gs "/d", FsEntry.fdir)] (gs "/d") false true exCd).1 = .ok () ∧
    (sftpMakeDir (sftpMakeDir exMgrRoom 0 [] [] (gs "/d") false true exCd).2.2
        1 [some 8] [(gs "/d", FsEntry.fdir)] (gs "/d") false true exCd).2.1
      = [(gs "/d", FsEntry.fdir)] :=
  makeDir_idempotent [] (gs "/d") false [(gs "/d", FsEntry.fdir)]
    exMgrRoom 0 1 [] [some 8] [] [(gs "/d", FsEntry.fdir)] exCd (gs "/d") false
    (sftpMakeDir exMgrRoom 0 [] [] (gs "/d") false true exCd).2.2 8
    rfl rfl rfl

/-- C8: `Parent` of a root is that root itself — for a local or SFTP
path `/`, and for a URL whose parsed path component is empty or `/`,
`Parent` returns the very same path value; and on well-formed URLs,
`Parent` and `Join` only rewrite the URL's path component (the result
is `scheme://host` followed by some path), while `Name` — and through
it `Stem` and `Suffix` — is a function of the path component alone. -/
theorem pathOps_url_root_spec (p : GoPath) (sch host pa arg : GoStr) :
    (p.isUrl = false → p.path = gs "/" → goParent p = p) ∧
    (p.isUrl = true → urlSplit p.path = some (sch, host, pa) →
      (pa = [] ∨ pa = gs "/") → goParent p = p) ∧
    (p.isUrl = true → urlSplit p.path = some (sch, host, pa) →
      ∃ pa2, (goParent p).path = urlString sch host pa2 ∧ (goParent p).isUrl = true) ∧
    (p.isUrl = true → urlSplit p.path = some (sch, host, pa) →
      host ≠ [] → host.all urlHostChar = true →
      ∃ pa2, (goJoinPath p arg).path = urlString sch host pa2 ∧
        (goJoinPath p arg).isUrl = true) ∧
    (p.isUrl = true → urlSplit p.path = some (sch, host, pa) →
      goName p = urlNameOfPath pa ∧
      goStem p = nameStem (urlNameOfPath pa) ∧
      goSuffixOf p = nameSuffix (urlNameOfPath pa)) := by
  refine ⟨?_, ?_, ?_, ?_, ?_⟩
  · intro hurl hroot
    unfold goParent
    rw [hurl]
    simp only [Bool.false_eq_true, if_false]
    rw [if_pos hroot]
  · intro hurl hsplit hroot
    unfold goParent
    rw [hurl]
    simp only [if_true, hsplit]
    rw [if_pos hroot]
  · intro hurl hsplit
    unfold goParent
    rw [hurl]
    simp only [if_true, hsplit]
    by_cases hroot : pa = [] ∨ pa = gs "/"
    · rw [if_pos hroot]
      exact ⟨pa, (urlSplit_recon _ _ _ _ hsplit).symm ▸ rfl, hurl⟩
    · rw [if_neg hroot]
      exact ⟨_, rfl, rfl⟩
  · intro hurl hsplit hhost hchars
    have hrecon := urlSplit_recon _ _ _ _ hsplit
    unfold goJoinPath
    by_cases harg : arg = []
    · rw [if_pos harg]
      exact ⟨pa, by rw [hrecon], hurl⟩
    · rw [if_neg harg, hurl]
      simp only [if_true]
      obtain ⟨pa2, htrim⟩ := strTrimEnd_url sch host pa hhost hchars
      rw [← hrecon] at htrim
      by_cases hjoin : strTrimStart (goReplaceBackslash arg) (gs "/") = []
      · rw [if_pos hjoin]
        exact ⟨pa2, htrim, rfl⟩
      · rw [if_neg hjoin]
        refine ⟨pa2 ++ '/' :: strTrimStart (goReplaceBackslash arg) (gs "/"), ?_, rfl⟩
        show strTrimEnd p.path (gs "/") ++ _ = _
        rw [htrim]
        unfold urlString
        simp [List.append_assoc]
  · intro hurl hsplit
    have hname : goName p = urlNameOfPath pa := by
      unfold goName
      rw [hurl]
      simp only [if_true, hsplit]
    exact ⟨hname, by unfold goStem; rw [hname], by unfold goSuffixOf; rw [hname]⟩

/-- C8 (witness): concrete checks — the SFTP root `/` and the URL
`https://ex.com` are their own parents; parent, join, name, stem and
suffix of `https://ex.com/a/b.txt` stay on scheme `https` and host
`ex.com`. -/
theorem pathOps_url_root_spec_witness :
    goParent { path := gs "/", isSftp := true } = { path := gs "/", isSftp := true } ∧
    goParent { path := gs "https://ex.com", isUrl := true }
      = { path := gs "https://ex.com", isUrl := true } ∧
    (∃ pa2, (goParent { path := gs "https://ex.com/a/b.txt", isUrl := true }).path
        = urlString (gs "https") (gs "ex.com") pa2 ∧
      (goParent { path := gs "https://ex.com/a/b.txt", isUrl := true }).isUrl = true) ∧
    (∃ pa2, (goJoinPath { path := gs "https://ex.com/a/b.txt", isUrl := true }
          (gs "c")).path = urlString (gs "https") (gs "ex.com") pa2 ∧
      (goJoinPath { path := gs "https://ex.com/a/b.txt", isUrl := true }
          (gs "c")).isUrl = true) ∧
    goName { path := gs "https://ex.com/a/b.txt", isUrl := true }
      = urlNameOfPath (gs "/a/b.txt") := by
  refine ⟨?_, ?_, ?_, ?_, ?_⟩
  · exact (pathOps_url_root_spec { path := gs "/", isSftp := true }
      [] [] [] []).1 rfl rfl
  · exact (pathOps_url_root_spec { path := gs "https://ex.com", isUrl := true }
      (gs "https") (gs "ex.com") [] []).2.1 rfl rfl (Or.inl rfl)
  · exact (pathOps_url_root_spec { path := gs "https://ex.com/a/b.txt", isUrl := true }
      (gs "https") (gs "ex.com") (gs "/a/b.txt") []).2.2.1 rfl rfl
  · exact (pathOps_url_root_spec { path := gs "https://ex.com/a/b.txt", isUrl := true }
      (gs "https") (gs "ex.com") (gs "/a/b.txt") (gs "c")).2.2.2.1 rfl rfl
      (by decide) (by decide)
  · exact ((pathOps_url_root_spec { path := gs "https://ex.com/a/b.txt", isUrl := true }
      (gs "https") (gs "ex.com") (gs "/a/b.txt") []).2.2.2.2 rfl rfl).1

/-- C9 (counterexample): for a URL path whose HEAD request fails, `Stat`
returns an error, yet `IsFile` is `true` — the URL arm of `IsFile`
returns `true` without consulting `Stat`, contradicting "every failed
Stat yields false". -/
theorem isFile_true_on_failed_url_stat :
    (goStat exUrl [] exMgrOne 0 [] [] none).toBool = false ∧
    goIsFile exUrl [] exMgrOne 0 [] [] none = true := by
  refine ⟨rfl, rfl⟩

/-- C9 (amended): `Exists` is precisely `Stat` success for every
backend, and for local and SFTP paths `IsDir`/`IsFile` are exactly
"`Stat` succeeds and reports a directory / non-directory"; for URL
paths, however, `IsDir` is constantly `false` and `IsFile` constantly
`true`, regardless of what `Stat` would report. -/
theorem existsIsDirIsFile_from_stat (p : GoPath) (σl : Fs) (m : Manager)
    (now : Nat) (dial : List (Option Nat)) (σr : Fs) (head : Option HttpResp) :
    (goExists p σl m now dial σr head = (goStat p σl m now dial σr head).toBool) ∧
    (p.isUrl = false →
      (goIsDir p σl m now dial σr head = true ↔
        ∃ i, goStat p σl m now dial σr head = .ok i ∧ i.isDir = true)) ∧
    (p.isUrl = false →
      (goIsFile p σl m now dial σr head = true ↔
        ∃ i, goStat p σl m now dial σr head = .ok i ∧ i.isDir = false)) ∧
    (p.isUrl = true →
      goIsDir p σl m now dial σr head = false ∧
      goIsFile p σl m now dial σr head = true) := by
  refine ⟨?_, fun hurl => ?_, fun hurl => ?_, fun hurl => ?_⟩
  · unfold goExists
    cases h : goStat p σl m now dial σr head <;> simp [Except.toBool, h]
  · unfold goIsDir
    rw [hurl]
    cases h : goStat p σl m now dial σr head with
    | ok i => simp [h]
    | error e => simp [h]
  · unfold goIsFile
    rw [hurl]
    cases h : goStat p σl m now dial σr head with
    | ok i => simp [h]
    | error e => simp [h]
  · unfold goIsDir goIsFile
    rw [hurl]
    exact ⟨rfl, rfl⟩

/-- C9 (witness): the URL constants at a concrete URL, and the
`Stat`-derivation of `IsDir` at a concrete local file. -/
theorem existsIsDirIsFile_from_stat_witness :
    (goIsDir exUrl [] exMgrOne 0 [] [] none = false ∧
      goIsFile exUrl [] exMgrOne 0 [] [] none = true) ∧
    (goIsDir exSrc exFs exMgrOne 0 [] [] none = true ↔
      ∃ i, goStat exSrc exFs exMgrOne 0 [] [] none = .ok i ∧ i.isDir = true) :=
  ⟨(existsIsDirIsFile_from_stat exUrl [] exMgrOne 0 [] [] none).2.2.2 rfl,
   (existsIsDirIsFile_from_stat exSrc exFs exMgrOne 0 [] [] none).2.1 rfl⟩

/-- C4 (witness): a concrete live pool run through `Remove`, `MakeDir`
and `WriteBytes` shows the first two close the session and the last
keeps it open. -/
theorem sftpOps_close_split_witness :
    poolAlive (sftpRemove exMgrRoom 1 [] [] (gs "/x") true false exCd).2.2 exKey
      = some false ∧
    poolAlive (sftpMakeDir exMgrRoom 1 [] [] (gs "/d") false true exCd).2.2 exKey
      = some false ∧
    poolAlive (sftpWriteBytes exMgrRoom 1 [] [] (gs "/f") (gs "data") exCd).2.2 exKey
      = some true :=
  sftpOps_close_split exMgrRoom 1 [] [] exCd (gs "/x") (gs "/f") (gs "data")
    true false true (exKey, { client := 7, alive := true, lastUsed := 0 })
    rfl rfl (by decide)

end Charmer
